import Mathlib

/-!
Shallow embedding of the ZBXP progression engine
(`supabase/migrations/20260222_core_gameplay.sql`, plus the guild RPCs of the
`20260227_beta_v0_patch.sql` revision and the client-side profile writes).

Tables become lists of rows; each secure RPC becomes a function from a database
state to `Except Err (DB × result)`, mirroring the fact that every RPC runs as
one atomic transaction: an exception rolls the whole transaction back, so the
error case carries no state.  `gen_random_uuid()` is modelled by a fresh-id
counter `nextId`, `now()` by the transaction timestamp `now`, `current_date` by
`today`, and `date_trunc('week', now())` by `weekStart`.
-/

namespace ZBXP

/-- Progression path keys, per the `profiles_path_key_check` and
`quests.path_key` check constraints. -/
inductive PathKey
  | heavenlyDemon
  | hunter
deriving DecidableEq, Repr

/-- Quest assignment status, per the `user_active_quests.status` check
constraint. -/
inductive QStatus
  | active
  | completed
  | abandoned
deriving DecidableEq, Repr

/-- Ledger source type, per the `xp_events.source_type` check constraint. -/
inductive SourceType
  | questCompletion
  | workoutLog
deriving DecidableEq, Repr

/-- A `public.profiles` row (the columns the engine reads or writes). -/
structure Profile where
  id : Nat
  username : Option String
  pathKey : Option PathKey
  totalXp : Int
  currentStreak : Nat
  longestStreak : Nat
deriving DecidableEq, Repr

/-- A `public.quests` definition row (the columns the engine reads). -/
structure Quest where
  id : Nat
  pathKey : PathKey
  xpReward : Int
  isActive : Bool
deriving DecidableEq, Repr

/-- A `public.user_active_quests` row. -/
structure Assignment where
  id : Nat
  userId : Nat
  questId : Nat
  status : QStatus
  selectedAt : Nat
  completedAt : Option Nat
  note : Option String
deriving DecidableEq, Repr

/-- A `public.quest_completions` row (unique on `active_quest_id`). -/
structure Completion where
  id : Nat
  userId : Nat
  activeQuestId : Nat
  questId : Nat
  note : Option String
deriving DecidableEq, Repr

/-- A `public.xp_events` ledger row (unique on
`(user_id, source_type, source_id)`). -/
structure XpEvent where
  userId : Nat
  sourceType : SourceType
  sourceId : Nat
  amount : Int
  createdAt : Nat
deriving DecidableEq, Repr

/-- A `public.workout_logs` row (unique on `(user_id, log_date)`). -/
structure WorkoutLog where
  id : Nat
  userId : Nat
  planId : Option Nat
  logDate : Int
  completed : Bool
  payload : String
  updatedAt : Nat
deriving DecidableEq, Repr

/-- A `public.workout_plans` definition row (the columns the engine reads). -/
structure WorkoutPlan where
  id : Nat
  pathKey : PathKey
  isActive : Bool
deriving DecidableEq, Repr

/-- A `public.user_selected_workout_plans` row (primary key `user_id`). -/
structure SelectedPlan where
  userId : Nat
  planId : Nat
  selectedAt : Nat
deriving DecidableEq, Repr

/-- A `public.groups` row; invite codes (uuid-derived 8-char strings in SQL)
are modelled as opaque numerals, fresh codes drawn from the id counter. -/
structure Guild where
  id : Nat
  name : String
  createdBy : Nat
  inviteCode : Nat
deriving DecidableEq, Repr

/-- A `public.group_members` row (primary key `(group_id, user_id)`). -/
structure Member where
  groupId : Nat
  userId : Nat
  role : String
deriving DecidableEq, Repr

/-- The transactional store: one list per table, plus the fresh-id counter and
the clock values a transaction observes. -/
structure DB where
  nextId : Nat
  now : Nat
  today : Int
  weekStart : Nat
  profiles : List Profile
  quests : List Quest
  assignments : List Assignment
  completions : List Completion
  xpEvents : List XpEvent
  workoutLogs : List WorkoutLog
  workoutPlans : List WorkoutPlan
  selectedPlans : List SelectedPlan
  guilds : List Guild
  members : List Member
deriving DecidableEq, Repr

/-- Typed failures raised (as exceptions that abort the transaction) by the
secure RPCs. -/
inductive Err
  | notAuthenticated
  | pathNotSelected
  | questNotFound
  | pathMismatch
  | capacityExceeded
  | activeQuestNotFound
  | planNotFound
  | planPathMismatch
  | dateRequired
  | notGroupMember
  | guildNameTooShort
  | invalidInviteCode
deriving DecidableEq, Repr

/-- Lookup `select * from profiles where id = u` (primary key, first match). -/
def profileOf (db : DB) (u : Nat) : Option Profile :=
  db.profiles.find? (fun p => p.id == u)

/-- The value of `coalesce((select total_xp from profiles where id = u), 0)`. -/
def totalXpOf (db : DB) (u : Nat) : Int :=
  ((profileOf db u).map Profile.totalXp).getD 0

/-- Sum of the amounts of one user's rows in an event list. -/
def sumFor (ev : List XpEvent) (u : Nat) : Int :=
  ((ev.filter (fun e => e.userId == u)).map XpEvent.amount).sum

/-- The ledger sum for one user: `select coalesce(sum(amount), 0) from
xp_events where user_id = u`. -/
def ledgerSum (db : DB) (u : Nat) : Int :=
  sumFor db.xpEvents u

/-- Number of rows of an event list with a given
`(user_id, source_type, source_id)` key. -/
def keyCount (ev : List XpEvent) (u : Nat) (sty : SourceType) (sid : Nat) :
    Nat :=
  (ev.filter
    (fun e => e.userId == u && e.sourceType == sty && e.sourceId == sid)).length

/-- Number of ledger rows with a given `(user_id, source_type, source_id)`
key.  The SQL unique constraint keeps this at most 1. -/
def eventCount (db : DB) (u : Nat) (sty : SourceType) (sid : Nat) : Nat :=
  keyCount db.xpEvents u sty sid

/-- Test for an existing ledger row with the given source key, i.e. whether
`insert into xp_events ... on conflict do nothing` would conflict. -/
def eventKeyExists (db : DB) (u : Nat) (sty : SourceType) (sid : Nat) : Bool :=
  db.xpEvents.any
    (fun e => e.userId == u && e.sourceType == sty && e.sourceId == sid)

/-- The number of `Active` assignments of a user: `select count(*) from
user_active_quests where user_id = u and status = 'active'`. -/
def countActive (db : DB) (u : Nat) : Nat :=
  (db.assignments.filter
    (fun a => a.userId == u && a.status == QStatus.active)).length

/-- Update `profiles set ... where id = u` (row function `f` applied to every
matching row, as SQL `update` does). -/
def updateProfile (db : DB) (u : Nat) (f : Profile → Profile) : DB :=
  { db with profiles := db.profiles.map (fun p => if p.id == u then f p else p) }

/-- Secure RPC `public.select_quest(p_quest_id)` of
`20260222_core_gameplay.sql` (lines 430-489): validates path and quest,
enforces the cap of 3 active assignments, then inserts an `active` assignment
`on conflict do nothing` (the partial unique index on `(user_id, quest_id)
where status = 'active'`), falling back to the existing active row.
Returns `(active_quest_id, quest_id, status)`. -/
def select_quest (uid : Option Nat) (pQuestId : Nat) (db : DB) :
    Except Err (DB × (Nat × Nat × QStatus)) :=
  match uid with
  | none => .error .notAuthenticated
  | some u =>
  match (profileOf db u).bind Profile.pathKey with
  | none => .error .pathNotSelected
  | some vPath =>
    match db.quests.find? (fun q => q.id == pQuestId && q.isActive) with
    | none => .error .questNotFound
    | some vQuest =>
      if vQuest.pathKey ≠ vPath then .error .pathMismatch
      else if countActive db u ≥ 3 then .error .capacityExceeded
      else
        match db.assignments.find?
            (fun a => a.userId == u && a.questId == pQuestId &&
              a.status == QStatus.active) with
        | some vRow => .ok (db, (vRow.id, vRow.questId, vRow.status))
        | none =>
          let vRow : Assignment :=
            { id := db.nextId, userId := u, questId := pQuestId,
              status := QStatus.active, selectedAt := db.now,
              completedAt := none, note := none }
          .ok ({ db with
                   nextId := db.nextId + 1,
                   assignments := db.assignments ++ [vRow] },
               (vRow.id, vRow.questId, vRow.status))

/-- Secure RPC `public.complete_quest(p_active_quest_id, p_optional_note)` of
`20260222_core_gameplay.sql` (lines 494-565): loads the caller-owned
assignment joined with its quest; an already-non-active assignment returns
`(false, 0, total, level)` with no writes; otherwise it inserts the completion
record (unique on `active_quest_id`, the `do nothing` branch only flips the
status), inserts the ledger row keyed by the fresh completion id, flips the
assignment to `completed` and adds `xp_reward` to the cached total. -/
def complete_quest (uid : Option Nat) (pActiveQuestId : Nat)
    (pOptionalNote : Option String) (db : DB) :
    Except Err (DB × (Bool × Int × Int × Int)) :=
  match uid with
  | none => .error .notAuthenticated
  | some u =>
  match db.assignments.find?
      (fun a => a.id == pActiveQuestId && a.userId == u) with
  | none => .error .activeQuestNotFound
  | some vActive =>
    match db.quests.find? (fun q => q.id == vActive.questId) with
    | none => .error .activeQuestNotFound
    | some vQuest =>
      if vActive.status ≠ QStatus.active then
        let vTotal := totalXpOf db u
        .ok (db, (false, 0, vTotal, vTotal / 100 + 1))
      else
        match db.completions.find? (fun c => c.activeQuestId == pActiveQuestId) with
        | some _ =>
          let vTotal := totalXpOf db u
          let db' := { db with assignments := db.assignments.map (fun a =>
            if a.id == vActive.id then
              { a with
                status := QStatus.completed,
                completedAt := a.completedAt <|> some db.now,
                note := a.note <|> pOptionalNote }
            else a) }
          .ok (db', (false, 0, vTotal, vTotal / 100 + 1))
        | none =>
          let vCompletionId := db.nextId
          let comp : Completion :=
            { id := vCompletionId, userId := u, activeQuestId := vActive.id,
              questId := vActive.questId, note := pOptionalNote }
          let vXp := vQuest.xpReward
          let events' :=
            if eventKeyExists db u SourceType.questCompletion vCompletionId then
              db.xpEvents
            else
              db.xpEvents ++ [{
                userId := u,
                sourceType := SourceType.questCompletion,
                sourceId := vCompletionId, amount := vXp, createdAt := db.now }]
          let assignments' := db.assignments.map (fun a =>
            if a.id == vActive.id then
              { a with
                status := QStatus.completed, completedAt := some db.now,
                note := pOptionalNote <|> a.note }
            else a)
          let profiles' := db.profiles.map (fun p =>
            if p.id == u then { p with totalXp := p.totalXp + vXp } else p)
          let db' := { db with
            nextId := db.nextId + 1,
            completions := db.completions ++ [comp],
            xpEvents := events', assignments := assignments',
            profiles := profiles' }
          let vTotal := totalXpOf db' u
          .ok (db', (true, vXp, vTotal, vTotal / 100 + 1))

/-- Helper `public.recalculate_streaks`, backward walk (lines 389-398): count
consecutive days `d, d-1, ...` that carry a `completed = true` log.  The SQL
`while` loop terminates because completed log dates are finite; the fuel the
engine passes (`workoutLogs.length + 1`) strictly exceeds any possible run. -/
def walkStreak (has : Int → Bool) (d : Int) : Nat → Nat
  | 0 => 0
  | fuel + 1 => if has d then walkStreak has (d - 1) fuel + 1 else 0

/-- Whether a user has a `completed = true` workout log on day `d`. -/
def completedOn (db : DB) (u : Nat) (d : Int) : Bool :=
  db.workoutLogs.any (fun l => l.userId == u && l.logDate == d && l.completed)

/-- The distinct completed log dates of a user (`select distinct log_date from
workout_logs where user_id = u and completed = true`). -/
def completedDates (db : DB) (u : Nat) : List Int :=
  ((db.workoutLogs.filter (fun l => l.userId == u && l.completed)).map
    WorkoutLog.logDate).dedup

/-- The longest-run computation of `recalculate_streaks` (lines 400-414): sort
the distinct completed dates ascending, group by `log_date - row_number()`
(the date-minus-rank key), and take the largest group size. -/
def maxRunLen (dates : List Int) : Nat :=
  let sorted := dates.insertionSort (· ≤ ·)
  let keys := sorted.enum.map (fun p => p.2 - (p.1 : Int))
  ((keys.map (fun k => keys.count k)).maximum).getD 0

/-- Helper `public.recalculate_streaks(p_user_id)` of
`20260222_core_gameplay.sql` (lines 378-425): computes the backward-walk
current streak and the grouped longest run, stores `current_streak` and
`greatest(longest_streak, computed)` on the profile, and returns the two
computed values (not the stored ones). -/
def recalculate_streaks (u : Nat) (db : DB) : DB × Nat × Nat :=
  let vCurrent := walkStreak (fun d => completedOn db u d) db.today
    (db.workoutLogs.length + 1)
  let vLongest := maxRunLen (completedDates db u)
  let db' := updateProfile db u (fun p =>
    { p with currentStreak := vCurrent,
             longestStreak := max p.longestStreak vLongest })
  (db', vCurrent, vLongest)

/-- Secure RPC `public.log_workout(p_date, p_completed, p_optional_payload)`
of `20260222_core_gameplay.sql` (lines 614-688): upserts the `(user, date)`
log row (the row id is stable across re-logs), awards 20 XP keyed by the row
id when the stored row is completed and no ledger row with that key exists,
then recalculates streaks.  Returns
`(log_id, awarded_xp, current_streak, longest_streak, total_xp)`. -/
def log_workout (uid : Option Nat) (pDate : Option Int) (pCompleted : Bool)
    (pOptionalPayload : Option String) (db : DB) :
    Except Err (DB × (Nat × Int × Nat × Nat × Int)) :=
  match uid with
  | none => .error .notAuthenticated
  | some u =>
  match pDate with
  | none => .error .dateRequired
  | some d =>
    let vPlanId : Option Nat :=
      (db.selectedPlans.find? (fun s => s.userId == u)).map SelectedPlan.planId
    let payload := pOptionalPayload.getD "\x7b\x7d"
    let dbLog : DB × WorkoutLog :=
      match db.workoutLogs.find? (fun l => l.userId == u && l.logDate == d) with
      | some oldRow =>
        let newRow := { oldRow with
          completed := pCompleted, payload := payload,
          planId := vPlanId <|> oldRow.planId, updatedAt := db.now }
        ({ db with workoutLogs := db.workoutLogs.map (fun l =>
             if l.userId == u && l.logDate == d then newRow else l) }, newRow)
      | none =>
        let newRow : WorkoutLog :=
          { id := db.nextId, userId := u, planId := vPlanId, logDate := d,
            completed := pCompleted, payload := payload, updatedAt := db.now }
        ({ db with
             nextId := db.nextId + 1,
             workoutLogs := db.workoutLogs ++ [newRow] }, newRow)
    let db1 := dbLog.1
    let vLog := dbLog.2
    let dbAward : DB × Int × Int :=
      if vLog.completed then
        if eventKeyExists db1 u SourceType.workoutLog vLog.id then
          (db1, (0 : Int), totalXpOf db1 u)
        else
          let db2 := { db1 with
            xpEvents := db1.xpEvents ++ [{
              userId := u,
              sourceType := SourceType.workoutLog, sourceId := vLog.id,
              amount := 20, createdAt := db1.now }],
            profiles := db1.profiles.map (fun p =>
              if p.id == u then { p with totalXp := p.totalXp + 20 } else p) }
          (db2, (20 : Int), totalXpOf db2 u)
      else (db1, (0 : Int), totalXpOf db1 u)
    let db2 := dbAward.1
    let vAward := dbAward.2.1
    let vTotal := dbAward.2.2
    let streaks := recalculate_streaks u db2
    let db3 := streaks.1
    let vCurrent := streaks.2.1
    let vLongest := streaks.2.2
    .ok (db3, (vLog.id, vAward, vCurrent, vLongest, vTotal))

/-- Secure RPC `public.select_workout_plan(p_plan_id)` of
`20260222_core_gameplay.sql` (lines 570-609): validates path and plan, then
upserts the caller's selected plan (primary key `user_id`). -/
def select_workout_plan (uid : Option Nat) (pPlanId : Nat) (db : DB) :
    Except Err (DB × Nat) :=
  match uid with
  | none => .error .notAuthenticated
  | some u =>
  match (profileOf db u).bind Profile.pathKey with
  | none => .error .pathNotSelected
  | some vPath =>
    match db.workoutPlans.find? (fun p => p.id == pPlanId && p.isActive) with
    | none => .error .planNotFound
    | some vPlan =>
      if vPlan.pathKey ≠ vPath then .error .planPathMismatch
      else
        let selected' :=
          if db.selectedPlans.any (fun s => s.userId == u) then
            db.selectedPlans.map (fun s =>
              if s.userId == u then
                { s with planId := pPlanId, selectedAt := db.now }
              else s)
          else
            db.selectedPlans ++ [{
              userId := u, planId := pPlanId, selectedAt := db.now }]
        .ok ({ db with selectedPlans := selected' }, pPlanId)

/-- RPC `public.create_guild(p_name)` of the `20260227_beta_v0_patch.sql`
revision: validates the trimmed name length, inserts the group with a fresh
invite code and the caller as owner member in the same transaction. -/
def create_guild (uid : Option Nat) (pName : String) (db : DB) :
    Except Err (DB × (Nat × Nat)) :=
  match uid with
  | none => .error .notAuthenticated
  | some u =>
  if pName.trim.length < 3 then .error .guildNameTooShort
  else
    let vGroupId := db.nextId
    let vCode := db.nextId
    let g : Guild := { id := vGroupId, name := pName.trim, createdBy := u,
                       inviteCode := vCode }
    let members' :=
      if db.members.any (fun m => m.groupId == vGroupId && m.userId == u) then
        db.members
      else db.members ++ [{ groupId := vGroupId, userId := u, role := "owner" }]
    .ok ({ db with
             nextId := db.nextId + 1, guilds := db.guilds ++ [g],
             members := members' }, (vGroupId, vCode))

/-- RPC `public.join_guild_by_code(p_code)` of the `20260227_beta_v0_patch.sql`
revision: looks the group up by invite code, then inserts the caller's
membership `on conflict (group_id, user_id) do nothing`. -/
def join_guild_by_code (uid : Option Nat) (pCode : Nat) (db : DB) :
    Except Err (DB × Nat) :=
  match uid with
  | none => .error .notAuthenticated
  | some u =>
  match db.guilds.find? (fun g => g.inviteCode == pCode) with
  | none => .error .invalidInviteCode
  | some g =>
    let members' :=
      if db.members.any (fun m => m.groupId == g.id && m.userId == u) then
        db.members
      else db.members ++ [{ groupId := g.id, userId := u, role := "member" }]
    .ok ({ db with members := members' }, g.id)

/-- A leaderboard result row `(user_id, username, xp_total)`. -/
structure LeaderRow where
  userId : Nat
  username : Option String
  xpTotal : Int
deriving DecidableEq, Repr

/-- Ascending comparison on nullable usernames; SQL `asc` puts nulls last. -/
def nameLe (a b : Option String) : Prop :=
  match a, b with
  | _, none => True
  | none, some _ => False
  | some s, some t => s ≤ t

instance : DecidableRel nameLe := fun a b => by
  unfold nameLe
  cases a <;> cases b <;> infer_instance

/-- The `order by xp_total desc, p.username asc` ordering of the leaderboard
query. -/
def lbRel (a b : LeaderRow) : Prop :=
  b.xpTotal < a.xpTotal ∨ (a.xpTotal = b.xpTotal ∧ nameLe a.username b.username)

instance : DecidableRel lbRel := fun a b => by
  unfold lbRel
  infer_instance

/-- The weekly/all-time cutoff: `date_trunc('week', now())` for `'weekly'`,
otherwise epoch. -/
def timeframeCutoff (db : DB) (tf : String) : Nat :=
  if tf == "weekly" then db.weekStart else 0

/-- One user's windowed ledger sum, as produced by the leaderboard's left join
plus `coalesce(sum(amount), 0)`. -/
def userXpSince (db : DB) (u : Nat) (cutoff : Nat) : Int :=
  ((db.xpEvents.filter (fun e => e.userId == u && cutoff ≤ e.createdAt)).map
    XpEvent.amount).sum

/-- Secure RPC `public.get_leaderboard(p_group_id, p_timeframe)` of
`20260222_core_gameplay.sql` (lines 693-741): requires the caller to be a
member, then produces one row per group member (left-joined profile username
and windowed ledger sum, zero when no events) ordered by
`xp_total desc, username asc`. -/
def get_leaderboard (uid : Option Nat) (pGroupId : Nat) (pTimeframe : String)
    (db : DB) : Except Err (List LeaderRow) :=
  match uid with
  | none => .error .notAuthenticated
  | some u =>
  if ¬ db.members.any (fun m => m.groupId == pGroupId && m.userId == u) then
    .error .notGroupMember
  else
    let vCutoff := timeframeCutoff db pTimeframe
    let rows := (db.members.filter (fun m => m.groupId == pGroupId)).map
      (fun m => { userId := m.userId,
                  username := (profileOf db m.userId).bind Profile.username,
                  xpTotal := userXpSince db m.userId vCutoff : LeaderRow })
    .ok (rows.insertionSort lbRel)

/-- Run a transaction for its state effect: a successful call commits the new
state, an exception rolls the whole transaction back to the input state. -/
def runState {α : Type} (r : Except Err (DB × α)) (db : DB) : DB :=
  match r with
  | .ok res => res.1
  | .error _ => db

/-- Structural facts the SQL schema guarantees: allocated ids sit below the
fresh-id counter (uuid freshness) and the workout-log primary key, the
`(user_id, log_date)` unique key and the assignment primary key are
duplicate-free. -/
@[reducible] def WF (db : DB) : Prop :=
  (∀ e ∈ db.xpEvents, e.sourceId < db.nextId) ∧
  (∀ l ∈ db.workoutLogs, l.id < db.nextId) ∧
  (∀ c ∈ db.completions, c.id < db.nextId) ∧
  (∀ a ∈ db.assignments, a.id < db.nextId) ∧
  (db.workoutLogs.map WorkoutLog.id).Nodup ∧
  (db.workoutLogs.map (fun l => (l.userId, l.logDate))).Nodup ∧
  (db.assignments.map Assignment.id).Nodup

/-- The Progression Aggregate invariant: every profile's cached `total_xp`
equals the ledger sum of that user's `xp_events` rows. -/
@[reducible] def XpInv (db : DB) : Prop :=
  ∀ p ∈ db.profiles, p.totalXp = ledgerSum db p.id

/-- At most one `workout_log` ledger row references any workout-log row. -/
@[reducible] def AwardOnce (db : DB) : Prop :=
  ∀ l ∈ db.workoutLogs,
    eventCount db l.userId SourceType.workoutLog l.id ≤ 1

/-- The idempotent award step shared by the ledger writers (the
`insert into xp_events ... on conflict (user_id, source_type, source_id)
do nothing returning id` of `log_workout` lines 663-676, with the profile
bump applied only when a row was actually inserted): returns the new state
and the `granted` flag. -/
def award (u : Nat) (sty : SourceType) (sid : Nat) (amt : Int) (db : DB) :
    DB × Bool :=
  if eventKeyExists db u sty sid then (db, false)
  else
    ({ db with
       xpEvents := db.xpEvents ++ [{
         userId := u, sourceType := sty, sourceId := sid, amount := amt,
         createdAt := db.now }],
       profiles := db.profiles.map (fun p =>
         if p.id == u then { p with totalXp := p.totalXp + amt } else p) },
     true)

/-- The same award call retried `n` times, applied sequentially — which is
also every serialization of `n` concurrent transactions, since each call is
one atomic transaction serialized by the unique-key constraint. -/
def awardTimes (u : Nat) (sty : SourceType) (sid : Nat) (amt : Int) :
    Nat → DB → DB
  | 0, db => db
  | n + 1, db => awardTimes u sty sid amt n (award u sty sid amt db).1

/-- A sequence of `log_workout` calls by one user for one date, applied in
order; each transaction commits, or rolls back leaving the state unchanged. -/
def logSeq (u : Nat) (d : Int) (calls : List (Bool × Option String))
    (db : DB) : DB :=
  calls.foldl (fun s c => runState (log_workout (some u) (some d) c.1 c.2 s) s)
    db

/-- RLS policy `profiles_update_own` (migration lines 229-231): a direct
client `update` of a `public.profiles` row passes row security exactly when
`auth.uid() = id`, both as `using` and as `with check`. -/
def profiles_update_own (uid : Option Nat) (rowId : Nat) : Bool :=
  uid == some rowId

/-- A direct client-side `update profiles set total_xp = v where id = target`
(the write issued by `incrementProfileXp` and `onClaimDailyXp` in the client
code), filtered by the `profiles_update_own` policy: only rows passing row
security are written. -/
def clientUpdateProfileXp (uid : Option Nat) (target : Nat) (v : Int)
    (db : DB) : DB :=
  { db with profiles := db.profiles.map (fun p =>
      if p.id == target && profiles_update_own uid p.id then
        { p with totalXp := v }
      else p) }

instance : IsTotal LeaderRow lbRel where
  total a b := by
    unfold lbRel
    rcases lt_trichotomy a.xpTotal b.xpTotal with h | h | h
    · exact Or.inr (Or.inl h)
    · have h2 : nameLe a.username b.username ∨ nameLe b.username a.username := by
        unfold nameLe
        cases a.username with
        | none => cases b.username <;> simp
        | some x =>
          cases b.username with
          | none => simp
          | some y => exact le_total x y
      rcases h2 with h2 | h2
      · exact Or.inl (Or.inr ⟨h, h2⟩)
      · exact Or.inr (Or.inr ⟨h.symm, h2⟩)
    · exact Or.inl (Or.inl h)

instance : IsTrans LeaderRow lbRel where
  trans a b c hab hbc := by
    unfold lbRel at hab hbc ⊢
    rcases hab with h1 | ⟨h1, h1n⟩ <;> rcases hbc with h2 | ⟨h2, h2n⟩
    · exact Or.inl (h2.trans h1)
    · exact Or.inl (h2 ▸ h1)
    · exact Or.inl (h1 ▸ h2)
    · refine Or.inr ⟨h1.trans h2, ?_⟩
      unfold nameLe at h1n h2n ⊢
      cases ha : a.username with
      | none =>
        rw [ha] at h1n
        cases hb : b.username with
        | none =>
          rw [hb] at h2n
          exact h2n
        | some y => rw [hb] at h1n; exact absurd h1n not_false
      | some x =>
        cases hc : c.username with
        | none => trivial
        | some z =>
          rw [ha] at h1n
          rw [hc] at h2n
          cases hb : b.username with
          | none => rw [hb] at h2n; exact absurd h2n not_false
          | some y =>
            rw [hb] at h1n h2n
            exact le_trans h1n h2n

/-- A user profile used by the concrete evaluation states. -/
def baseProfile : Profile :=
  { id := 0, username := some "zed", pathKey := some PathKey.hunter,
    totalXp := 0, currentStreak := 0, longestStreak := 0 }

/-- A small concrete state: one user on the hunter path with no XP yet, four
active hunter quests in the catalog, one workout plan. -/
def dbBase : DB :=
  { nextId := 100, now := 1000, today := 100, weekStart := 500,
    profiles := [baseProfile],
    quests := [{ id := 1, pathKey := PathKey.hunter, xpReward := 20, isActive := true },
               { id := 2, pathKey := PathKey.hunter, xpReward := 30, isActive := true },
               { id := 3, pathKey := PathKey.hunter, xpReward := 35, isActive := true },
               { id := 4, pathKey := PathKey.hunter, xpReward := 50, isActive := true }],
    assignments := [], completions := [], xpEvents := [], workoutLogs := [],
    workoutPlans := [{ id := 7, pathKey := PathKey.hunter, isActive := true }],
    selectedPlans := [], guilds := [], members := [] }

/-- `dbBase` with one active assignment (id 10) of quest 1 (reward 20). -/
def dbA : DB :=
  { dbBase with assignments :=
      [{
         id := 10, userId := 0, questId := 1, status := QStatus.active,
         selectedAt := 5, completedAt := none, note := none }] }

/-- `dbBase` with the user at the active-quest cap: three active assignments
for quests 1, 2 and 3. -/
def dbCap : DB :=
  { dbBase with assignments :=
      [{
         id := 10, userId := 0, questId := 1, status := QStatus.active,
         selectedAt := 5, completedAt := none, note := none },
       {
         id := 11, userId := 0, questId := 2, status := QStatus.active,
         selectedAt := 5, completedAt := none, note := none },
       {
         id := 12, userId := 0, questId := 3, status := QStatus.active,
         selectedAt := 5, completedAt := none, note := none }] }

/-- `dbBase` with a three-member group (40); one member has one ledger event
inside the current week, the other two none. -/
def dbLb : DB :=
  { dbBase with
    members := [{ groupId := 40, userId := 0, role := "owner" },
                { groupId := 40, userId := 5, role := "member" },
                { groupId := 40, userId := 6, role := "member" }],
    profiles := [{ baseProfile with username := none },
      {
        id := 5, username := some "alf", pathKey := none, totalXp := 20,
        currentStreak := 0, longestStreak := 0 },
      {
        id := 6, username := none, pathKey := none, totalXp := 0,
        currentStreak := 0, longestStreak := 0 }],
    xpEvents := [{
      userId := 5, sourceType := SourceType.workoutLog,
      sourceId := 77, amount := 20, createdAt := 600 }] }

/-- Completed logs on the current date (100) and the two days before it, and
no log on day 97. -/
def dbStreak1 : DB :=
  { dbBase with workoutLogs :=
      [{
         id := 20, userId := 0, planId := none, logDate := 100,
         completed := true, payload := "", updatedAt := 10 },
       {
         id := 21, userId := 0, planId := none, logDate := 99,
         completed := true, payload := "", updatedAt := 10 },
       {
         id := 22, userId := 0, planId := none, logDate := 98,
         completed := true, payload := "", updatedAt := 10 }] }

/-- A five-day completed run (days 91-95), a gap, then a two-day completed
run ending on the current date (99-100). -/
def dbStreak2 : DB :=
  { dbBase with workoutLogs :=
      [{
         id := 30, userId := 0, planId := none, logDate := 91,
         completed := true, payload := "", updatedAt := 10 },
       {
         id := 31, userId := 0, planId := none, logDate := 92,
         completed := true, payload := "", updatedAt := 10 },
       {
         id := 32, userId := 0, planId := none, logDate := 93,
         completed := true, payload := "", updatedAt := 10 },
       {
         id := 33, userId := 0, planId := none, logDate := 94,
         completed := true, payload := "", updatedAt := 10 },
       {
         id := 34, userId := 0, planId := none, logDate := 95,
         completed := true, payload := "", updatedAt := 10 },
       {
         id := 35, userId := 0, planId := none, logDate := 99,
         completed := true, payload := "", updatedAt := 10 },
       {
         id := 36, userId := 0, planId := none, logDate := 100,
         completed := true, payload := "", updatedAt := 10 }] }

/-- `dbBase` whose profile already stores a longest streak of 9 from history
that is no longer in the log table's maximal run ending anywhere. -/
def dbLong : DB :=
  { dbBase with profiles := [{ baseProfile with longestStreak := 9 }] }

theorem find?_map_update {α : Type} (p : α → Bool) (g : α → α)
    (hg : ∀ a, p a = true → p (g a) = true) (l : List α) :
    (l.map (fun a => if p a then g a else a)).find? p = (l.find? p).map g := by
  induction l with
  | nil => rfl
  | cons a t ih =>
    by_cases h : p a = true
    · rw [List.map_cons, if_pos h, List.find?_cons_of_pos _ (hg a h),
        List.find?_cons_of_pos _ h, Option.map_some']
    · have h' : p a = false := by simpa using h
      rw [List.map_cons, if_neg (by simp [h']), List.find?_cons_of_neg _ (by simp [h']),
        List.find?_cons_of_neg _ (by simp [h'])]
      exact ih

theorem map_map_update {α β : Type} (p : α → Bool) (g : α → α) (k : α → β)
    (l : List α) (hk : ∀ a ∈ l, p a = true → k (g a) = k a) :
    (l.map (fun a => if p a then g a else a)).map k = l.map k := by
  rw [List.map_map]
  refine List.map_congr_left (fun a ha => ?_)
  by_cases h : p a = true
  · simp [h, hk a ha h]
  · simp [h]

theorem sumFor_append (ev : List XpEvent) (e : XpEvent) (u : Nat) :
    sumFor (ev ++ [e]) u =
      sumFor ev u + (if e.userId == u then e.amount else 0) := by
  by_cases h : (e.userId == u) = true
  · simp [sumFor, List.filter_append, h]
  · simp [sumFor, List.filter_append, h]

theorem keyCount_append (ev : List XpEvent) (e : XpEvent) (u : Nat)
    (sty : SourceType) (sid : Nat) :
    keyCount (ev ++ [e]) u sty sid = keyCount ev u sty sid +
      (if e.userId == u && e.sourceType == sty && e.sourceId == sid
        then 1 else 0) := by
  by_cases h : (e.userId == u && e.sourceType == sty && e.sourceId == sid) = true
  · simp [keyCount, List.filter_append, h]
  · simp [keyCount, List.filter_append, h]

theorem eventKeyExists_false_iff (db : DB) (u : Nat) (sty : SourceType)
    (sid : Nat) :
    eventKeyExists db u sty sid = false ↔ eventCount db u sty sid = 0 := by
  simp [eventKeyExists, eventCount, keyCount, List.length_eq_zero,
    List.filter_eq_nil_iff, List.any_eq_false]

theorem eventKeyExists_fresh (db : DB) (u : Nat) (sty : SourceType)
    (h : ∀ e ∈ db.xpEvents, e.sourceId < db.nextId) :
    eventKeyExists db u sty db.nextId = false := by
  simp only [eventKeyExists, List.any_eq_false]
  intro e he
  have hne : e.sourceId ≠ db.nextId := Nat.ne_of_lt (h e he)
  simp [hne]

theorem ledgerSum_profiles_irrelevant (db : DB) (ps : List Profile) (u : Nat) :
    ledgerSum { db with profiles := ps } u = ledgerSum db u := rfl

theorem xpInv_updateProfile (db : DB) (u : Nat) (f : Profile → Profile)
    (hxp : ∀ p, (f p).totalXp = p.totalXp) (hid : ∀ p, (f p).id = p.id)
    (h : XpInv db) : XpInv (updateProfile db u f) := by
  intro p hp
  simp only [updateProfile] at hp
  rcases List.mem_map.mp hp with ⟨q, hq, rfl⟩
  by_cases hqu : (q.id == u) = true
  · rw [if_pos hqu]
    calc (f q).totalXp = q.totalXp := hxp q
      _ = ledgerSum db q.id := h q hq
      _ = ledgerSum (updateProfile db u f) (f q).id := by
          rw [hid]; rfl
  · rw [if_neg hqu]
    calc q.totalXp = ledgerSum db q.id := h q hq
      _ = ledgerSum (updateProfile db u f) q.id := rfl

theorem runState_error {α : Type} (e : Err) (db : DB) :
    runState (α := α) (.error e) db = db := rfl

theorem runState_ok {α : Type} (res : DB × α) (db : DB) :
    runState (.ok res) db = res.1 := rfl

theorem not_mem_of_forall_lt {l : List Nat} {n : Nat} (h : ∀ x ∈ l, x < n) :
    n ∉ l := fun hm => lt_irrefl n (h n hm)

theorem nodup_append_singleton {α : Type} {l : List α} {a : α} (h : l.Nodup)
    (ha : a ∉ l) : (l ++ [a]).Nodup := by
  simp [List.nodup_append, h, ha]

theorem preserves_select_quest (uid : Option Nat) (qid : Nat) (db : DB)
    (hwf : WF db) (hinv : XpInv db) :
    WF (runState (select_quest uid qid db) db) ∧
      XpInv (runState (select_quest uid qid db) db) := by
  cases uid with
  | none => exact ⟨hwf, hinv⟩
  | some u =>
    simp only [select_quest]
    split
    · exact ⟨hwf, hinv⟩
    split
    · exact ⟨hwf, hinv⟩
    split
    · exact ⟨hwf, hinv⟩
    split
    · exact ⟨hwf, hinv⟩
    split
    · exact ⟨hwf, hinv⟩
    obtain ⟨hev, hlog, hcomp, hasg, hlogid, hlogkey, hasgid⟩ := hwf
    refine ⟨⟨?_, ?_, ?_, ?_, hlogid, hlogkey, ?_⟩, hinv⟩
    · exact fun e he => Nat.lt_succ_of_lt (hev e he)
    · exact fun l hl => Nat.lt_succ_of_lt (hlog l hl)
    · exact fun c hc => Nat.lt_succ_of_lt (hcomp c hc)
    · intro a ha
      rcases List.mem_append.mp ha with ha | ha
      · exact Nat.lt_succ_of_lt (hasg a ha)
      · rcases List.mem_singleton.mp ha with rfl
        exact Nat.lt_succ_self _
    · show (List.map Assignment.id (db.assignments ++ [_])).Nodup
      rw [List.map_append]
      refine nodup_append_singleton hasgid (not_mem_of_forall_lt ?_)
      intro x hx
      rcases List.mem_map.mp hx with ⟨a, ha, rfl⟩
      exact hasg a ha

theorem preserves_select_workout_plan (uid : Option Nat) (pid : Nat) (db : DB)
    (hwf : WF db) (hinv : XpInv db) :
    WF (runState (select_workout_plan uid pid db) db) ∧
      XpInv (runState (select_workout_plan uid pid db) db) := by
  cases uid with
  | none => exact ⟨hwf, hinv⟩
  | some u =>
    simp only [select_workout_plan]
    split
    · exact ⟨hwf, hinv⟩
    split
    · exact ⟨hwf, hinv⟩
    split
    · exact ⟨hwf, hinv⟩
    exact ⟨hwf, hinv⟩

theorem preserves_create_guild (uid : Option Nat) (nm : String) (db : DB)
    (hwf : WF db) (hinv : XpInv db) :
    WF (runState (create_guild uid nm db) db) ∧
      XpInv (runState (create_guild uid nm db) db) := by
  cases uid with
  | none => exact ⟨hwf, hinv⟩
  | some u =>
    simp only [create_guild]
    split
    · exact ⟨hwf, hinv⟩
    obtain ⟨hev, hlog, hcomp, hasg, hlogid, hlogkey, hasgid⟩ := hwf
    refine ⟨⟨?_, ?_, ?_, ?_, hlogid, hlogkey, hasgid⟩, hinv⟩
    · exact fun e he => Nat.lt_succ_of_lt (hev e he)
    · exact fun l hl => Nat.lt_succ_of_lt (hlog l hl)
    · exact fun c hc => Nat.lt_succ_of_lt (hcomp c hc)
    · exact fun a ha => Nat.lt_succ_of_lt (hasg a ha)

theorem preserves_join_guild (uid : Option Nat) (code : Nat) (db : DB)
    (hwf : WF db) (hinv : XpInv db) :
    WF (runState (join_guild_by_code uid code db) db) ∧
      XpInv (runState (join_guild_by_code uid code db) db) := by
  cases uid with
  | none => exact ⟨hwf, hinv⟩
  | some u =>
    simp only [join_guild_by_code]
    split
    · exact ⟨hwf, hinv⟩
    exact ⟨hwf, hinv⟩

theorem flip_id_eq (vid : Nat) (st : QStatus) (ct : Option Nat)
    (nt : Option String) (b : Assignment) :
    (if b.id == vid then
      { b with status := st, completedAt := ct, note := nt } else b).id = b.id := by
  split <;> rfl

theorem preserves_complete_quest (uid : Option Nat) (aqId : Nat)
    (note : Option String) (db : DB) (hwf : WF db) (hinv : XpInv db) :
    WF (runState (complete_quest uid aqId note db) db) ∧
      XpInv (runState (complete_quest uid aqId note db) db) := by
  cases uid with
  | none => exact ⟨hwf, hinv⟩
  | some u =>
    simp only [complete_quest]
    split
    · exact ⟨hwf, hinv⟩
    rename_i vActive hfa
    split
    · exact ⟨hwf, hinv⟩
    rename_i vQuest hfq
    split
    · exact ⟨hwf, hinv⟩
    rename_i hstatus
    split
    · -- completion row already exists: only assignments are rewritten
      obtain ⟨hev, hlog, hcomp, hasg, hlogid, hlogkey, hasgid⟩ := hwf
      refine ⟨⟨hev, hlog, hcomp, ?_, hlogid, hlogkey, ?_⟩, hinv⟩
      · intro a ha
        rcases List.mem_map.mp ha with ⟨b, hb, rfl⟩
        split
        · exact hasg b hb
        · exact hasg b hb
      · have hmm := map_map_update (fun b => b.id == vActive.id)
          (fun a => { a with
            status := QStatus.completed,
            completedAt := a.completedAt <|> some db.now,
            note := a.note <|> note }) Assignment.id
          db.assignments (fun b _ _ => rfl)
        exact hmm.symm ▸ hasgid
    · -- fresh completion: ledger insert, status flip, aggregate bump
      rename_i hnc
      obtain ⟨hev, hlog, hcomp, hasg, hlogid, hlogkey, hasgid⟩ := hwf
      have hfresh : eventKeyExists db u SourceType.questCompletion db.nextId = false :=
        eventKeyExists_fresh db u _ hev
      rw [runState_ok]
      simp only [hfresh, Bool.false_eq_true, if_false]
      constructor
      · refine ⟨?_, ?_, ?_, ?_, hlogid, hlogkey, ?_⟩
        · intro e he
          rcases List.mem_append.mp he with he | he
          · exact Nat.lt_succ_of_lt (hev e he)
          · rcases List.mem_singleton.mp he with rfl
            exact Nat.lt_succ_self _
        · exact fun l hl => Nat.lt_succ_of_lt (hlog l hl)
        · intro c hc
          rcases List.mem_append.mp hc with hc | hc
          · exact Nat.lt_succ_of_lt (hcomp c hc)
          · rcases List.mem_singleton.mp hc with rfl
            exact Nat.lt_succ_self _
        · intro a ha
          rcases List.mem_map.mp ha with ⟨b, hb, rfl⟩
          have hbid :
              (if b.id == vActive.id then
                { b with status := QStatus.completed, completedAt := some db.now,
                         note := note <|> b.note } else b).id = b.id :=
            flip_id_eq _ _ _ _ b
          rw [hbid]
          exact Nat.lt_succ_of_lt (hasg b hb)
        · have hmm := map_map_update (fun b => b.id == vActive.id)
            (fun a => { a with
              status := QStatus.completed,
              completedAt := some db.now, note := note <|> a.note }) Assignment.id
            db.assignments (fun b _ _ => rfl)
          exact hmm.symm ▸ hasgid
      · intro p hp
        rcases List.mem_map.mp hp with ⟨q, hq, rfl⟩
        have hq2 : q.totalXp = sumFor db.xpEvents q.id := hinv q hq
        by_cases hqu : (q.id == u) = true
        · have hq_id : q.id = u := by simpa using hqu
          rw [if_pos hqu]
          show q.totalXp + vQuest.xpReward =
            sumFor (db.xpEvents ++ [_]) q.id
          rw [sumFor_append]
          simp [hq2, hq_id]
        · have hq_id : ¬ q.id = u := by simpa using hqu
          have hne : u ≠ q.id := fun h => hq_id h.symm
          rw [if_neg hqu]
          show q.totalXp = sumFor (db.xpEvents ++ [_]) q.id
          rw [sumFor_append]
          simp [hq2, hne]

theorem wf_upsert_existing (db : DB) (u : Nat) (d : Int)
    (oldRow newRow : WorkoutLog)
    (hfind : db.workoutLogs.find? (fun l => l.userId == u && l.logDate == d) =
      some oldRow)
    (hid : newRow.id = oldRow.id) (huser : newRow.userId = oldRow.userId)
    (hdate : newRow.logDate = oldRow.logDate) (hwf : WF db) :
    WF { db with
      workoutLogs := db.workoutLogs.map
        (fun l => if l.userId == u && l.logDate == d then newRow else l) } := by
  obtain ⟨hev, hlog, hcomp, hasg, hlogid, hlogkey, hasgid⟩ := hwf
  have hmemOld : oldRow ∈ db.workoutLogs := List.mem_of_find?_eq_some hfind
  have hrep : ∀ l ∈ db.workoutLogs,
      (l.userId == u && l.logDate == d) = true → l = oldRow := by
    intro l hl hp
    have h1 : l.userId = u ∧ l.logDate = d := by simpa using hp
    have h2 : oldRow.userId = u ∧ oldRow.logDate = d := by
      simpa using List.find?_some hfind
    exact List.inj_on_of_nodup_map hlogkey hl hmemOld
      (by simp [h1.1, h1.2, h2.1, h2.2])
  refine ⟨hev, ?_, hcomp, hasg, ?_, ?_, hasgid⟩
  · intro l hl
    rcases List.mem_map.mp hl with ⟨b, hb, rfl⟩
    by_cases hp : (b.userId == u && b.logDate == d) = true
    · rw [if_pos hp, hid]
      exact hlog oldRow hmemOld
    · rw [if_neg hp]
      exact hlog b hb
  · have hmm := map_map_update (fun l => l.userId == u && l.logDate == d)
      (fun _ => newRow) WorkoutLog.id db.workoutLogs
      (fun a ha hp => by rw [hrep a ha hp]; exact hid)
    exact hmm.symm ▸ hlogid
  · have hmm := map_map_update (fun l => l.userId == u && l.logDate == d)
      (fun _ => newRow) (fun l => (l.userId, l.logDate)) db.workoutLogs
      (fun a ha hp => by rw [hrep a ha hp]; simp [huser, hdate])
    exact hmm.symm ▸ hlogkey

theorem wf_upsert_new (db : DB) (u : Nat) (d : Int) (newRow : WorkoutLog)
    (hfind : db.workoutLogs.find? (fun l => l.userId == u && l.logDate == d) =
      none)
    (hid : newRow.id = db.nextId) (huser : newRow.userId = u)
    (hdate : newRow.logDate = d) (hwf : WF db) :
    WF { db with
      nextId := db.nextId + 1,
      workoutLogs := db.workoutLogs ++ [newRow] } := by
  obtain ⟨hev, hlog, hcomp, hasg, hlogid, hlogkey, hasgid⟩ := hwf
  have hnone : ∀ l ∈ db.workoutLogs,
      ¬ (l.userId == u && l.logDate == d) = true := by
    intro l hl
    simpa using List.find?_eq_none.mp hfind l hl
  refine ⟨?_, ?_, ?_, ?_, ?_, ?_, hasgid⟩
  · exact fun e he => Nat.lt_succ_of_lt (hev e he)
  · intro l hl
    rcases List.mem_append.mp hl with hl | hl
    · exact Nat.lt_succ_of_lt (hlog l hl)
    · rcases List.mem_singleton.mp hl with rfl
      rw [hid]
      exact Nat.lt_succ_self _
  · exact fun c hc => Nat.lt_succ_of_lt (hcomp c hc)
  · exact fun a ha => Nat.lt_succ_of_lt (hasg a ha)
  · rw [List.map_append]
    refine nodup_append_singleton hlogid ?_
    rw [hid]
    refine not_mem_of_forall_lt ?_
    intro x hx
    rcases List.mem_map.mp hx with ⟨b, hb, rfl⟩
    exact hlog b hb
  · rw [List.map_append]
    refine nodup_append_singleton hlogkey ?_
    intro hmem
    rcases List.mem_map.mp hmem with ⟨b, hb, hkb⟩
    have hbu : b.userId = u := by
      have := congrArg Prod.fst hkb
      simpa [huser] using this
    have hbd : b.logDate = d := by
      have := congrArg Prod.snd hkb
      simpa [hdate] using this
    exact hnone b hb (by simp [hbu, hbd])

theorem wf_award (db : DB) (u : Nat) (sid : Nat) (amt : Int) (ts : Nat)
    (hsid : sid < db.nextId) (hwf : WF db) :
    WF { db with
      xpEvents := db.xpEvents ++ [{
        userId := u,
        sourceType := SourceType.workoutLog, sourceId := sid, amount := amt,
        createdAt := ts }],
      profiles := db.profiles.map (fun p =>
        if p.id == u then { p with totalXp := p.totalXp + amt } else p) } := by
  obtain ⟨hev, hlog, hcomp, hasg, hlogid, hlogkey, hasgid⟩ := hwf
  refine ⟨?_, hlog, hcomp, hasg, hlogid, hlogkey, hasgid⟩
  intro e he
  rcases List.mem_append.mp he with he | he
  · exact hev e he
  · rcases List.mem_singleton.mp he with rfl
    exact hsid

theorem xpInv_award (db : DB) (u : Nat) (sty : SourceType) (sid : Nat)
    (amt : Int) (ts : Nat) (hinv : XpInv db) :
    XpInv { db with
      xpEvents := db.xpEvents ++ [{
        userId := u, sourceType := sty,
        sourceId := sid, amount := amt, createdAt := ts }],
      profiles := db.profiles.map (fun p =>
        if p.id == u then { p with totalXp := p.totalXp + amt } else p) } := by
  intro p hp
  rcases List.mem_map.mp hp with ⟨q, hq, rfl⟩
  have hq2 : q.totalXp = sumFor db.xpEvents q.id := hinv q hq
  by_cases hqu : (q.id == u) = true
  · have hq_id : q.id = u := by simpa using hqu
    rw [if_pos hqu]
    show q.totalXp + amt = sumFor (db.xpEvents ++ [_]) q.id
    rw [sumFor_append]
    simp [hq2, hq_id]
  · have hq_id : ¬ q.id = u := by simpa using hqu
    have hne : u ≠ q.id := fun h => hq_id h.symm
    rw [if_neg hqu]
    show q.totalXp = sumFor (db.xpEvents ++ [_]) q.id
    rw [sumFor_append]
    simp [hq2, hne]

theorem wf_recalc (u : Nat) (db : DB) (h : WF db) :
    WF (recalculate_streaks u db).1 := h

theorem xpInv_recalc (u : Nat) (db : DB) (h : XpInv db) :
    XpInv (recalculate_streaks u db).1 :=
  xpInv_updateProfile db u
    (fun p => { p with
      currentStreak := walkStreak (fun d => completedOn db u d) db.today
        (db.workoutLogs.length + 1),
      longestStreak := max p.longestStreak (maxRunLen (completedDates db u)) })
    (fun _ => rfl) (fun _ => rfl) h

theorem preserves_log_workout (uid : Option Nat) (pDate : Option Int)
    (pc : Bool) (pp : Option String) (db : DB) (hwf : WF db) (hinv : XpInv db) :
    WF (runState (log_workout uid pDate pc pp db) db) ∧
      XpInv (runState (log_workout uid pDate pc pp db) db) := by
  cases uid with
  | none => exact ⟨hwf, hinv⟩
  | some u =>
    cases pDate with
    | none => exact ⟨hwf, hinv⟩
    | some d =>
      simp only [log_workout]
      cases hfind : db.workoutLogs.find?
          (fun l => l.userId == u && l.logDate == d) with
      | some oldRow =>
        have hmem : oldRow ∈ db.workoutLogs := List.mem_of_find?_eq_some hfind
        have hwf1 := wf_upsert_existing db u d oldRow
          { oldRow with
            completed := pc, payload := pp.getD "\x7b\x7d",
            planId := ((db.selectedPlans.find?
              (fun s => s.userId == u)).map SelectedPlan.planId) <|> oldRow.planId,
            updatedAt := db.now } hfind rfl rfl rfl hwf
        dsimp only
        cases pc with
        | false =>
          simp only [Bool.false_eq_true, if_false]
          exact ⟨wf_recalc u _ hwf1, xpInv_recalc u _ hinv⟩
        | true =>
          simp only [eq_self_iff_true, if_true]
          split
          · exact ⟨wf_recalc u _ hwf1, xpInv_recalc u _ hinv⟩
          · refine ⟨wf_recalc u _ ?_, xpInv_recalc u _ ?_⟩
            · exact wf_award _ u oldRow.id 20 db.now
                (by exact hwf.2.1 oldRow hmem) hwf1
            · exact xpInv_award _ u SourceType.workoutLog oldRow.id 20 db.now
                (by exact hinv)
      | none =>
        have hwf1 := wf_upsert_new db u d
          { id := db.nextId, userId := u,
            planId := (db.selectedPlans.find?
              (fun s => s.userId == u)).map SelectedPlan.planId,
            logDate := d, completed := pc, payload := pp.getD "\x7b\x7d",
            updatedAt := db.now } hfind rfl rfl rfl hwf
        dsimp only
        cases pc with
        | false =>
          simp only [Bool.false_eq_true, if_false]
          exact ⟨wf_recalc u _ hwf1, xpInv_recalc u _ hinv⟩
        | true =>
          simp only [eq_self_iff_true, if_true]
          split
          · exact ⟨wf_recalc u _ hwf1, xpInv_recalc u _ hinv⟩
          · refine ⟨wf_recalc u _ ?_, xpInv_recalc u _ ?_⟩
            · exact wf_award _ u db.nextId 20 db.now
                (by exact Nat.lt_succ_self _) hwf1
            · exact xpInv_award _ u SourceType.workoutLog db.nextId 20 db.now
                (by exact hinv)

theorem keyCount_eq_zero (ev : List XpEvent) (u : Nat) (sty : SourceType)
    (sid : Nat) (h : ∀ e ∈ ev, e.sourceId ≠ sid) :
    keyCount ev u sty sid = 0 := by
  simp only [keyCount, List.length_eq_zero, List.filter_eq_nil_iff]
  intro e he
  simp [h e he]

theorem awardOnce_upsert_existing (db : DB) (u : Nat) (d : Int)
    (oldRow newRow : WorkoutLog)
    (hfind : db.workoutLogs.find? (fun l => l.userId == u && l.logDate == d) =
      some oldRow)
    (hid : newRow.id = oldRow.id) (huser : newRow.userId = oldRow.userId)
    (ha : AwardOnce db) :
    AwardOnce { db with
      workoutLogs := db.workoutLogs.map
        (fun l => if l.userId == u && l.logDate == d then newRow else l) } := by
  intro l hl
  rcases List.mem_map.mp hl with ⟨b, hb, rfl⟩
  by_cases hp : (b.userId == u && b.logDate == d) = true
  · rw [if_pos hp]
    show keyCount db.xpEvents newRow.userId SourceType.workoutLog newRow.id ≤ 1
    rw [hid, huser]
    exact ha oldRow (List.mem_of_find?_eq_some hfind)
  · rw [if_neg hp]
    exact ha b hb

theorem awardOnce_upsert_new (db : DB) (u : Nat) (d : Int)
    (newRow : WorkoutLog) (hid : newRow.id = db.nextId)
    (hev : ∀ e ∈ db.xpEvents, e.sourceId < db.nextId) (ha : AwardOnce db) :
    AwardOnce { db with
      nextId := db.nextId + 1,
      workoutLogs := db.workoutLogs ++ [newRow] } := by
  intro l hl
  rcases List.mem_append.mp hl with hl | hl
  · exact ha l hl
  · rcases List.mem_singleton.mp hl with rfl
    show keyCount db.xpEvents l.userId SourceType.workoutLog l.id ≤ 1
    have hz : keyCount db.xpEvents l.userId SourceType.workoutLog l.id = 0 := by
      refine keyCount_eq_zero _ _ _ _ ?_
      intro e he
      rw [hid]
      exact Nat.ne_of_lt (hev e he)
    simp [hz]

theorem awardOnce_award (db : DB) (u sid : Nat) (amt : Int) (ts : Nat)
    (ps : List Profile)
    (hcnt : eventCount db u SourceType.workoutLog sid = 0)
    (ha : AwardOnce db) :
    AwardOnce { db with
      xpEvents := db.xpEvents ++ [{
        userId := u, sourceType := SourceType.workoutLog, sourceId := sid,
        amount := amt, createdAt := ts }],
      profiles := ps } := by
  intro l hl
  show keyCount (db.xpEvents ++ [_]) l.userId SourceType.workoutLog l.id ≤ 1
  rw [keyCount_append]
  by_cases hm : (u == l.userId &&
      (SourceType.workoutLog == SourceType.workoutLog : Bool) &&
      sid == l.id) = true
  · have h1 : u = l.userId ∧ sid = l.id := by
      rcases (by simpa using hm : (u = l.userId ∧ True) ∧ sid = l.id) with
        ⟨⟨ha1, _⟩, ha2⟩
      exact ⟨ha1, ha2⟩
    have hz : keyCount db.xpEvents l.userId SourceType.workoutLog l.id = 0 := by
      rw [← h1.1, ← h1.2]
      exact hcnt
    simp [hz, h1.1, h1.2]
  · have hm' : (u == l.userId &&
        (SourceType.workoutLog == SourceType.workoutLog : Bool) &&
        sid == l.id) = false := by
      simpa using hm
    simp only [hm', Bool.false_eq_true, if_false, Nat.add_zero]
    exact ha l hl

theorem awardOnce_recalc (u : Nat) (db : DB) (h : AwardOnce db) :
    AwardOnce (recalculate_streaks u db).1 := h

theorem awardOnce_log_workout (uid : Option Nat) (pDate : Option Int)
    (pc : Bool) (pp : Option String) (db : DB) (hwf : WF db)
    (ha : AwardOnce db) :
    WF (runState (log_workout uid pDate pc pp db) db) ∧
      AwardOnce (runState (log_workout uid pDate pc pp db) db) := by
  cases uid with
  | none => exact ⟨hwf, ha⟩
  | some u =>
    cases pDate with
    | none => exact ⟨hwf, ha⟩
    | some d =>
      simp only [log_workout]
      cases hfind : db.workoutLogs.find?
          (fun l => l.userId == u && l.logDate == d) with
      | some oldRow =>
        have hmem : oldRow ∈ db.workoutLogs := List.mem_of_find?_eq_some hfind
        have huQ : oldRow.userId = u := by
          have := List.find?_some hfind
          exact (by simpa using this : oldRow.userId = u ∧ oldRow.logDate = d).1
        have hwf1 := wf_upsert_existing db u d oldRow
          { oldRow with
            completed := pc, payload := pp.getD "\x7b\x7d",
            planId := ((db.selectedPlans.find?
              (fun s => s.userId == u)).map SelectedPlan.planId) <|> oldRow.planId,
            updatedAt := db.now } hfind rfl rfl rfl hwf
        have ha1 := awardOnce_upsert_existing db u d oldRow
          { oldRow with
            completed := pc, payload := pp.getD "\x7b\x7d",
            planId := ((db.selectedPlans.find?
              (fun s => s.userId == u)).map SelectedPlan.planId) <|> oldRow.planId,
            updatedAt := db.now } hfind rfl rfl ha
        dsimp only
        cases pc with
        | false =>
          simp only [Bool.false_eq_true, if_false]
          exact ⟨wf_recalc u _ hwf1, awardOnce_recalc u _ ha1⟩
        | true =>
          simp only [eq_self_iff_true, if_true]
          split
          · exact ⟨wf_recalc u _ hwf1, awardOnce_recalc u _ ha1⟩
          next hke =>
            have hke' : eventCount db u SourceType.workoutLog oldRow.id = 0 := by
              have := (eventKeyExists_false_iff _ u SourceType.workoutLog
                oldRow.id).mp (by simpa using hke)
              exact this
            refine ⟨wf_recalc u _ ?_, awardOnce_recalc u _ ?_⟩
            · exact wf_award _ u oldRow.id 20 db.now
                (by exact hwf.2.1 oldRow hmem) hwf1
            · exact awardOnce_award _ u oldRow.id 20 db.now _
                (by exact hke') ha1
      | none =>
        have hwf1 := wf_upsert_new db u d
          { id := db.nextId, userId := u,
            planId := (db.selectedPlans.find?
              (fun s => s.userId == u)).map SelectedPlan.planId,
            logDate := d, completed := pc, payload := pp.getD "\x7b\x7d",
            updatedAt := db.now } hfind rfl rfl rfl hwf
        have ha1 := awardOnce_upsert_new db u d
          { id := db.nextId, userId := u,
            planId := (db.selectedPlans.find?
              (fun s => s.userId == u)).map SelectedPlan.planId,
            logDate := d, completed := pc, payload := pp.getD "\x7b\x7d",
            updatedAt := db.now } rfl hwf.1 ha
        dsimp only
        cases pc with
        | false =>
          simp only [Bool.false_eq_true, if_false]
          exact ⟨wf_recalc u _ hwf1, awardOnce_recalc u _ ha1⟩
        | true =>
          simp only [eq_self_iff_true, if_true]
          split
          · exact ⟨wf_recalc u _ hwf1, awardOnce_recalc u _ ha1⟩
          next hke =>
            have hke' : keyCount db.xpEvents u SourceType.workoutLog
                db.nextId = 0 := by
              refine keyCount_eq_zero _ _ _ _ ?_
              intro e he
              exact Nat.ne_of_lt (hwf.1 e he)
            refine ⟨wf_recalc u _ ?_, awardOnce_recalc u _ ?_⟩
            · exact wf_award _ u db.nextId 20 db.now
                (by exact Nat.lt_succ_self _) hwf1
            · exact awardOnce_award _ u db.nextId 20 db.now _
                (by exact hke') ha1

theorem award_granted (u : Nat) (sty : SourceType) (sid : Nat) (amt : Int)
    (db : DB) (h0 : eventCount db u sty sid = 0) :
    eventCount (award u sty sid amt db).1 u sty sid = 1 ∧
      ((profileOf db u).isSome = true →
        totalXpOf (award u sty sid amt db).1 u = totalXpOf db u + amt) := by
  have hke : eventKeyExists db u sty sid = false :=
    (eventKeyExists_false_iff db u sty sid).mpr h0
  unfold award
  rw [hke]
  simp only [Bool.false_eq_true, if_false]
  constructor
  · show keyCount (db.xpEvents ++ [_]) u sty sid = 1
    rw [keyCount_append]
    have h0' : keyCount db.xpEvents u sty sid = 0 := h0
    simp [h0']
  · intro hp
    rcases Option.isSome_iff_exists.mp hp with ⟨prof, hprof⟩
    have hprof' : List.find? (fun p => p.id == u) db.profiles = some prof := hprof
    have hpred0 := List.find?_some hprof'
    have hpred : (prof.id == u) = true := hpred0
    have hmap := find?_map_update (fun p => p.id == u)
      (fun p => { p with totalXp := p.totalXp + amt })
      (fun a ha => by simpa using ha) db.profiles
    show totalXpOf _ u = totalXpOf db u + amt
    unfold totalXpOf profileOf
    dsimp only
    rw [hmap, hprof']
    simp [totalXpOf, profileOf, hprof', hpred]

theorem award_stable (u : Nat) (sty : SourceType) (sid : Nat) (amt : Int)
    (db : DB) (h1 : eventCount db u sty sid ≠ 0) :
    award u sty sid amt db = (db, false) := by
  have hke : eventKeyExists db u sty sid = true := by
    cases hb : eventKeyExists db u sty sid
    · exact absurd ((eventKeyExists_false_iff db u sty sid).mp hb) h1
    · rfl
  unfold award
  rw [hke]
  simp

theorem awardTimes_stable (u : Nat) (sty : SourceType) (sid : Nat) (amt : Int)
    (n : Nat) (db : DB) (h1 : eventCount db u sty sid ≠ 0) :
    awardTimes u sty sid amt n db = db := by
  induction n with
  | zero => rfl
  | succ m ih =>
    show awardTimes u sty sid amt m (award u sty sid amt db).1 = db
    rw [award_stable u sty sid amt db h1]
    exact ih

theorem walkStreak_run (has : Int → Bool) :
    ∀ (fuel : Nat) (d : Int) (k : Nat), k < walkStreak has d fuel →
      has (d - (k : Int)) = true := by
  intro fuel
  induction fuel with
  | zero =>
    intro d k hk
    simp [walkStreak] at hk
  | succ n ih =>
    intro d k hk
    rw [walkStreak] at hk
    by_cases hd : has d = true
    · rw [if_pos hd] at hk
      cases k with
      | zero => simpa using hd
      | succ j =>
        have hj : j < walkStreak has (d - 1) n := by omega
        have hres := ih (d - 1) j hj
        have heq : d - 1 - (j : Int) = d - ((j : Int) + 1) := by ring
        rw [heq] at hres
        simpa [Nat.cast_succ] using hres
    · rw [if_neg hd] at hk
      omega

theorem walkStreak_stop (has : Int → Bool) :
    ∀ (fuel : Nat) (d : Int), walkStreak has d fuel < fuel →
      has (d - (walkStreak has d fuel : Int)) = false := by
  intro fuel
  induction fuel with
  | zero =>
    intro d h
    exact absurd h (Nat.not_lt_zero _)
  | succ n ih =>
    intro d h
    by_cases hd : has d = true
    · rw [walkStreak, if_pos hd] at h ⊢
      have hlt : walkStreak has (d - 1) n < n := by omega
      have hres := ih (d - 1) hlt
      have heq : d - ((walkStreak has (d - 1) n : Int) + 1) =
          d - 1 - (walkStreak has (d - 1) n : Int) := by ring
      rw [Nat.cast_succ, heq]
      exact hres
    · rw [walkStreak, if_neg hd]
      simpa using hd

theorem run_le_logs (db : DB) (u : Nat) (c : Nat)
    (h : ∀ k < c, completedOn db u (db.today - (k : Int)) = true) :
    c ≤ db.workoutLogs.length := by
  have hsub : ((List.range c).map (fun (k : Nat) => db.today - (k : Int))) ⊆
      db.workoutLogs.map WorkoutLog.logDate := by
    intro x hx
    rcases List.mem_map.mp hx with ⟨k, hk, rfl⟩
    have hk' := h k (List.mem_range.mp hk)
    rcases List.any_eq_true.mp hk' with ⟨l, hl, hpl⟩
    have hld : l.logDate = db.today - (k : Int) := by
      have hsplit : (l.userId = u ∧ l.logDate = db.today - (k : Int)) ∧
          l.completed = true := by simpa using hpl
      exact hsplit.1.2
    exact hld ▸ List.mem_map_of_mem WorkoutLog.logDate hl
  have hinj : Function.Injective (fun k : Nat => db.today - (k : Int)) := by
    intro a b hab
    simp only [sub_right_inj, Int.natCast_inj] at hab
    exact hab
  have hnd : ((List.range c).map (fun (k : Nat) => db.today - (k : Int))).Nodup :=
    (List.nodup_range c).map hinj
  calc c = ((List.range c).map (fun (k : Nat) => db.today - (k : Int))).length := by
        simp
    _ ≤ (db.workoutLogs.map WorkoutLog.logDate).length :=
        (hnd.subperm hsub).length_le
    _ = db.workoutLogs.length := by simp

theorem recalc_current_run (db : DB) (u : Nat) :
    (∀ k < (recalculate_streaks u db).2.1,
      completedOn db u (db.today - (k : Int)) = true) ∧
    completedOn db u
      (db.today - ((recalculate_streaks u db).2.1 : Int)) = false := by
  have hc : (recalculate_streaks u db).2.1 =
      walkStreak (fun d => completedOn db u d) db.today
        (db.workoutLogs.length + 1) := rfl
  have hrun : ∀ k < walkStreak (fun d => completedOn db u d) db.today
      (db.workoutLogs.length + 1),
      completedOn db u (db.today - (k : Int)) = true := by
    intro k hk
    exact walkStreak_run _ _ _ _ hk
  refine ⟨by rw [hc]; exact hrun, ?_⟩
  have hle : walkStreak (fun d => completedOn db u d) db.today
      (db.workoutLogs.length + 1) ≤ db.workoutLogs.length :=
    run_le_logs db u _ hrun
  rw [hc]
  exact walkStreak_stop _ _ _ (Nat.lt_succ_of_le hle)

theorem countActive_flip (aid u : Nat) (g : Assignment → Assignment)
    (hgst : ∀ a, (g a).status = QStatus.completed) :
    ∀ (l : List Assignment), (l.map Assignment.id).Nodup →
    ∀ a0 ∈ l, a0.id = aid → a0.userId = u → a0.status = QStatus.active →
    ((l.map (fun a => if a.id == aid then g a else a)).filter
      (fun a => a.userId == u && a.status == QStatus.active)).length + 1 =
    (l.filter (fun a => a.userId == u && a.status == QStatus.active)).length := by
  intro l
  induction l with
  | nil =>
    intro _ a0 ha0
    exact absurd ha0 (List.not_mem_nil a0)
  | cons b t ih =>
    intro hnd a0 ha0 hid hu hst
    have hndt : (t.map Assignment.id).Nodup := (List.nodup_cons.mp hnd).2
    have hbnott : b.id ∉ t.map Assignment.id := (List.nodup_cons.mp hnd).1
    by_cases hbid : (b.id == aid) = true
    · have hb_aid : b.id = aid := by simpa using hbid
      have ha0b : a0 = b := by
        rcases List.mem_cons.mp ha0 with rfl | hmem
        · rfl
        · exact absurd (hb_aid ▸ hid ▸ List.mem_map_of_mem Assignment.id hmem)
            hbnott
      have htail : t.map (fun a => if a.id == aid then g a else a) = t := by
        have : ∀ a ∈ t, (if a.id == aid then g a else a) = a := by
          intro a ha
          have hne : ¬ (a.id == aid) = true := by
            intro hc
            have : a.id = aid := by simpa using hc
            exact hbnott (hb_aid ▸ this ▸ List.mem_map_of_mem Assignment.id ha)
          rw [if_neg hne]
        rw [List.map_congr_left this, List.map_id']
      have hpb : (b.userId == u && b.status == QStatus.active) = true := by
        rw [← ha0b]
        simp [hu, hst]
      have hpgb : ¬ ((g b).userId == u && (g b).status == QStatus.active)
          = true := by
        simp [hgst b]
      rw [List.map_cons, if_pos hbid, List.filter_cons, List.filter_cons,
        htail]
      simp only [hpb, hpgb, if_pos, if_neg]
      simp [hpb, hpgb]
    · have hb_ne : a0 ≠ b := by
        intro hc
        exact hbid (by simp [← hc, hid])
      have ha0t : a0 ∈ t := by
        rcases List.mem_cons.mp ha0 with rfl | hmem
        · exact absurd rfl hb_ne
        · exact hmem
      have hrec := ih hndt a0 ha0t hid hu hst
      rw [List.map_cons, if_neg hbid, List.filter_cons, List.filter_cons]
      by_cases hpb : (b.userId == u && b.status == QStatus.active) = true
      · simp only [hpb, if_pos]
        simp only [List.length_cons]
        omega
      · simp only [hpb, if_neg]
        simpa using hrec

theorem find?_flip_none (aid u q : Nat) (g : Assignment → Assignment)
    (hgst : ∀ a, (g a).status = QStatus.completed)
    (l : List Assignment)
    (hn : l.find? (fun a => a.userId == u && a.questId == q &&
      a.status == QStatus.active) = none) :
    (l.map (fun a => if a.id == aid then g a else a)).find?
      (fun a => a.userId == u && a.questId == q &&
        a.status == QStatus.active) = none := by
  rw [List.find?_eq_none]
  intro x hx
  rcases List.mem_map.mp hx with ⟨b, hb, rfl⟩
  by_cases hbid : (b.id == aid) = true
  · rw [if_pos hbid]
    simp [hgst b]
  · rw [if_neg hbid]
    simpa using List.find?_eq_none.mp hn b hb

theorem find?_map_pred {α : Type} (p : α → Bool) (f : α → α)
    (hf : ∀ a, p (f a) = p a) (l : List α) :
    (l.map f).find? p = (l.find? p).map f := by
  induction l with
  | nil => rfl
  | cons b t ih =>
    rw [List.map_cons]
    by_cases h : p b = true
    · have h2 : p (f b) = true := by rw [hf b]; exact h
      rw [List.find?_cons_of_pos _ h2, List.find?_cons_of_pos _ h,
        Option.map_some']
    · have h2 : ¬ p (f b) = true := by rw [hf b]; exact h
      rw [List.find?_cons_of_neg _ h2, List.find?_cons_of_neg _ h]
      exact ih

theorem find?_map_flip (aqId u : Nat) (g : Assignment → Assignment)
    (hgid : ∀ a, (g a).id = a.id) (hguser : ∀ a, (g a).userId = a.userId)
    (l : List Assignment) :
    (l.map (fun a => if a.id == aqId then g a else a)).find?
      (fun a => a.id == aqId && a.userId == u) =
    (l.find? (fun a => a.id == aqId && a.userId == u)).map
      (fun a => if a.id == aqId then g a else a) := by
  refine find?_map_pred _ _ ?_ l
  intro a
  by_cases hb : (a.id == aqId) = true
  · simp only [if_pos hb]
    simp [hgid a, hguser a]
  · simp only [if_neg hb]

theorem complete_quest_success (db : DB) (u aqId : Nat) (note : Option String)
    (aq : Assignment) (q : Quest)
    (hev : ∀ e ∈ db.xpEvents, e.sourceId < db.nextId)
    (hfa : db.assignments.find? (fun a => a.id == aqId && a.userId == u) =
      some aq)
    (hfq : db.quests.find? (fun q0 => q0.id == aq.questId) = some q)
    (hst : aq.status = QStatus.active)
    (hnc : db.completions.find? (fun c => c.activeQuestId == aqId) = none) :
    ∃ db', complete_quest (some u) aqId note db =
        .ok (db', (true, q.xpReward, totalXpOf db' u,
          totalXpOf db' u / 100 + 1)) ∧
      db'.assignments = db.assignments.map (fun a =>
        if a.id == aq.id then
          { a with status := QStatus.completed, completedAt := some db.now,
                   note := note <|> a.note }
        else a) ∧
      db'.profiles = db.profiles.map (fun p =>
        if p.id == u then { p with totalXp := p.totalXp + q.xpReward }
        else p) ∧
      db'.xpEvents = db.xpEvents ++ [{
        userId := u, sourceType := SourceType.questCompletion,
        sourceId := db.nextId, amount := q.xpReward, createdAt := db.now }] ∧
      db'.quests = db.quests ∧ db'.completions = db.completions ++ [{
        id := db.nextId, userId := u, activeQuestId := aq.id,
        questId := aq.questId, note := note }] ∧
      db'.nextId = db.nextId + 1 := by
  have hfresh : eventKeyExists db u SourceType.questCompletion db.nextId =
      false := eventKeyExists_fresh db u _ hev
  simp only [complete_quest, hfa, hfq, hnc]
  rw [if_neg (by simp [hst])]
  simp only [hfresh, Bool.false_eq_true, if_false]
  exact ⟨_, rfl, rfl, rfl, rfl, rfl, rfl, rfl⟩

theorem profileOf_recalc (db0 : DB) (u : Nat) :
    profileOf (recalculate_streaks u db0).1 u =
      (profileOf db0 u).map (fun p =>
        { p with
          currentStreak := walkStreak (fun d0 => completedOn db0 u d0)
            db0.today (db0.workoutLogs.length + 1),
          longestStreak := max p.longestStreak
            (maxRunLen (completedDates db0 u)) }) := by
  have h := find?_map_update (fun p => p.id == u)
    (fun p =>
      { p with
        currentStreak := walkStreak (fun d0 => completedOn db0 u d0)
          db0.today (db0.workoutLogs.length + 1),
        longestStreak := max p.longestStreak
          (maxRunLen (completedDates db0 u)) })
    (fun a ha => by simpa using ha) db0.profiles
  exact h

theorem find?_profiles_bump (l : List Profile) (u : Nat) (amt : Int) :
    (l.map (fun p => if p.id == u then { p with totalXp := p.totalXp + amt }
      else p)).find? (fun p => p.id == u) =
    (l.find? (fun p => p.id == u)).map
      (fun p => { p with totalXp := p.totalXp + amt }) := by
  have h := find?_map_update (fun p => p.id == u)
    (fun p => { p with totalXp := p.totalXp + amt })
    (fun a ha => by simpa using ha) l
  exact h

/-- C1: at-most-once award.  For a source key `(user, sourceType, sourceId)`
with no ledger row yet and an existing profile, issuing the award transaction
`n + 1` times — sequentially, which also covers every serialization of
concurrent duplicates since each call is a single atomic transaction
serialized by the `xp_events (user_id, source_type, source_id)` unique key —
leaves exactly one matching ledger row and increases the profile's cached
total by `amount` exactly once. -/
theorem c1_award_at_most_once (u : Nat) (sty : SourceType) (sid : Nat)
    (amt : Int) (db : DB) (hp : (profileOf db u).isSome = true)
    (h0 : eventCount db u sty sid = 0) (n : Nat) :
    eventCount (awardTimes u sty sid amt (n + 1) db) u sty sid = 1 ∧
      totalXpOf (awardTimes u sty sid amt (n + 1) db) u =
        totalXpOf db u + amt := by
  have hfirst := award_granted u sty sid amt db h0
  have hone : eventCount (award u sty sid amt db).1 u sty sid = 1 := hfirst.1
  have hstab := awardTimes_stable u sty sid amt n (award u sty sid amt db).1
    (by rw [hone]; exact one_ne_zero)
  have hstep : awardTimes u sty sid amt (n + 1) db =
      awardTimes u sty sid amt n (award u sty sid amt db).1 := rfl
  rw [hstep, hstab]
  exact ⟨hone, hfirst.2 hp⟩

/-- Witness for C1: three retries of a 20-XP award at a fresh key on a
concrete state leave one ledger row and raise the cached total from 0 to 20. -/
theorem c1_award_at_most_once_witness :
    eventCount (awardTimes 0 SourceType.workoutLog 55 20 3 dbBase) 0
        SourceType.workoutLog 55 = 1 ∧
      totalXpOf (awardTimes 0 SourceType.workoutLog 55 20 3 dbBase) 0 =
        totalXpOf dbBase 0 + 20 :=
  c1_award_at_most_once 0 SourceType.workoutLog 55 20 dbBase (by decide)
    (by decide) 2

/-- C2: the Progression Aggregate is never stale.  Under the schema facts
`WF`, every engine operation — `select_quest`, `complete_quest`,
`log_workout`, `select_workout_plan`, `create_guild`, `join_guild_by_code` —
preserves the invariant that each profile's cached `total_xp` equals the sum
of that user's `xp_events` amounts; a failing call rolls back and leaves the
state unchanged, so the invariant survives every outcome. -/
theorem c2_total_xp_equals_ledger_sum (db : DB) (hwf : WF db)
    (hinv : XpInv db) :
    (∀ uid qid, XpInv (runState (select_quest uid qid db) db)) ∧
    (∀ uid aq note, XpInv (runState (complete_quest uid aq note db) db)) ∧
    (∀ uid d c p, XpInv (runState (log_workout uid d c p db) db)) ∧
    (∀ uid pid, XpInv (runState (select_workout_plan uid pid db) db)) ∧
    (∀ uid nm, XpInv (runState (create_guild uid nm db) db)) ∧
    (∀ uid code, XpInv (runState (join_guild_by_code uid code db) db)) :=
  ⟨fun uid qid => (preserves_select_quest uid qid db hwf hinv).2,
   fun uid aq note => (preserves_complete_quest uid aq note db hwf hinv).2,
   fun uid d c p => (preserves_log_workout uid d c p db hwf hinv).2,
   fun uid pid => (preserves_select_workout_plan uid pid db hwf hinv).2,
   fun uid nm => (preserves_create_guild uid nm db hwf hinv).2,
   fun uid code => (preserves_join_guild uid code db hwf hinv).2⟩

/-- Witness for C2 on a concrete state: the invariant holds after a quest
completion and after a completed workout log. -/
theorem c2_total_xp_equals_ledger_sum_witness :
    XpInv (runState (complete_quest (some 0) 10 none dbA) dbA) ∧
    XpInv (runState (log_workout (some 0) (some 100) true none dbA) dbA) :=
  ⟨(c2_total_xp_equals_ledger_sum dbA (by decide) (by decide)).2.1
      (some 0) 10 none,
   (c2_total_xp_equals_ledger_sum dbA (by decide) (by decide)).2.2.1
      (some 0) (some 100) true none⟩

/-- C5 counterexample: profiles are NOT mutable only through the engine.  The
`profiles_update_own` policy passes a direct client update of the caller's own
row, and such a write (the one `incrementProfileXp` / `onClaimDailyXp` issue)
sets `total_xp` to an arbitrary value — here 999999 on a profile whose ledger
is empty. -/
theorem c5_direct_client_write_succeeds :
    profiles_update_own (some 0) 0 = true ∧
    (profileOf dbBase 0).map Profile.totalXp = some 0 ∧
    (profileOf (clientUpdateProfileXp (some 0) 0 999999 dbBase) 0).map
      Profile.totalXp = some 999999 :=
  ⟨rfl, rfl, rfl⟩

/-- C5 amended: direct profile writes are restricted to the owning user, not
to the engine: a client write aimed at another user's row changes nothing,
while the owner's own write sets `total_xp` to the arbitrary requested value
on every row it owns. -/
theorem c5_profiles_update_own_only (uid : Option Nat) (target : Nat)
    (v : Int) (db : DB) :
    (uid ≠ some target → clientUpdateProfileXp uid target v db = db) ∧
    (∀ p ∈ (clientUpdateProfileXp (some target) target v db).profiles,
      p.id = target → p.totalXp = v) := by
  constructor
  · intro hne
    unfold clientUpdateProfileXp profiles_update_own
    have hall : ∀ p ∈ db.profiles,
        (if p.id == target && (uid == some p.id) then
          { p with totalXp := v } else p) = p := by
      intro p _
      by_cases hpt : p.id = target
      · have : (uid == some p.id) = false := by
          subst hpt
          cases uid with
          | none => rfl
          | some w =>
            have hwne : w ≠ p.id := fun hc => hne (by rw [hc])
            simp [hwne]
        simp [this]
      · have : (p.id == target) = false := by simp [hpt]
        simp [this]
    rw [List.map_congr_left hall, List.map_id']
  · intro p hp hpt
    rcases List.mem_map.mp hp with ⟨q, hq, rfl⟩
    by_cases hqt : (q.id == target && profiles_update_own (some target) q.id)
        = true
    · rw [if_pos hqt] at hpt ⊢
    · rw [if_neg hqt] at hpt ⊢
      exfalso
      apply hqt
      simp [profiles_update_own, hpt]

/-- Witness for C5's amended statement: a write by user 1 against user 0's
profile is a no-op, and user 0's own write sets the arbitrary value. -/
theorem c5_profiles_update_own_only_witness :
    clientUpdateProfileXp (some 1) 0 5 dbBase = dbBase ∧
    ((profileOf (clientUpdateProfileXp (some 0) 0 777 dbBase) 0).map
      Profile.totalXp = some 777) :=
  ⟨(c5_profiles_update_own_only (some 1) 0 5 dbBase).1 (by decide),
   by rfl⟩

/-- C8: at most one workout XP event per day-row.  Starting from any state
satisfying the schema facts and the single-award invariant, any sequence of
`log_workout` calls by one user for one date (toggles included) keeps both:
every workout-log row — in particular that date's row, whose id is stable
across the upsert — is referenced by at most one `workout_log` ledger row. -/
theorem c8_log_workout_awards_once (u : Nat) (d : Int)
    (calls : List (Bool × Option String)) (db : DB) (hwf : WF db)
    (ha : AwardOnce db) :
    WF (logSeq u d calls db) ∧ AwardOnce (logSeq u d calls db) := by
  induction calls generalizing db with
  | nil => exact ⟨hwf, ha⟩
  | cons c rest ih =>
    have hstep := awardOnce_log_workout (some u) (some d) c.1 c.2 db hwf ha
    exact ih (runState (log_workout (some u) (some d) c.1 c.2 db) db)
      hstep.1 hstep.2

/-- Witness for C8: toggling completed true-false-true on one date creates
exactly one ledger event for that date's row (id 100) and the invariant
holds. -/
theorem c8_log_workout_awards_once_witness :
    AwardOnce (logSeq 0 50 [(true, none), (false, none), (true, none)]
      dbBase) ∧
    eventCount (logSeq 0 50 [(true, none), (false, none), (true, none)]
      dbBase) 0 SourceType.workoutLog 100 = 1 :=
  ⟨(c8_log_workout_awards_once 0 50 [(true, none), (false, none),
      (true, none)] dbBase (by decide) (by decide)).2,
   by decide⟩

/-- C4 counterexample: re-selecting is not always error-free.  In a concrete
state where the user already holds an Active assignment for quest 1 and is at
the cap of 3, `select_quest` for that same quest raises CapacityExceeded —
the cap check runs before the idempotent-reselect path — contradicting the
claim that a second selectQuest never raises (including at the cap). -/
theorem c4_reselect_at_cap_errors :
    (dbCap.assignments.find? (fun a => a.userId == 0 && a.questId == 1 &&
      a.status == QStatus.active)).isSome = true ∧
    select_quest (some 0) 1 dbCap = .error Err.capacityExceeded :=
  ⟨rfl, rfl⟩

/-- C4 amended: for a (user, quest) with an existing Active assignment and all
validations passing, a second `select_quest` below the cap succeeds, returns
the existing assignment and leaves the state entirely unchanged — so exactly
one Active row remains and `selected_at` is NOT refreshed; at the cap the same
call fails with CapacityExceeded. -/
theorem c4_reselect_idempotent_below_cap (db : DB) (u qid : Nat)
    (pk : PathKey) (q : Quest) (row : Assignment)
    (hpk : (profileOf db u).bind Profile.pathKey = some pk)
    (hfq : db.quests.find? (fun q0 => q0.id == qid && q0.isActive) = some q)
    (hmatch : q.pathKey = pk)
    (hrow : db.assignments.find? (fun a => a.userId == u && a.questId == qid &&
      a.status == QStatus.active) = some row) :
    (countActive db u < 3 →
      select_quest (some u) qid db = .ok (db, (row.id, row.questId,
        row.status))) ∧
    (countActive db u ≥ 3 →
      select_quest (some u) qid db = .error Err.capacityExceeded) := by
  constructor
  · intro hcap
    simp only [select_quest, hpk, hfq, hrow]
    rw [if_neg (by simp [hmatch]), if_neg (by omega)]
  · intro hcap
    simp only [select_quest, hpk, hfq]
    rw [if_neg (by simp [hmatch]), if_pos hcap]

/-- Witness for C4's amended statement: below the cap (one active row) the
re-select returns the existing row id 10 with the state unchanged; at the cap
it errors. -/
theorem c4_reselect_idempotent_below_cap_witness :
    select_quest (some 0) 1 dbA = .ok (dbA, (10, 1, QStatus.active)) ∧
    select_quest (some 0) 1 dbCap = .error Err.capacityExceeded :=
  ⟨(c4_reselect_idempotent_below_cap dbA 0 1 PathKey.hunter
      { id := 1, pathKey := PathKey.hunter, xpReward := 20, isActive := true }
      { id := 10, userId := 0, questId := 1, status := QStatus.active,
        selectedAt := 5, completedAt := none, note := none }
      rfl rfl rfl rfl).1 (by decide),
   (c4_reselect_idempotent_below_cap dbCap 0 1 PathKey.hunter
      { id := 1, pathKey := PathKey.hunter, xpReward := 20, isActive := true }
      { id := 10, userId := 0, questId := 1, status := QStatus.active,
        selectedAt := 5, completedAt := none, note := none }
      rfl rfl rfl rfl).2 (by decide)⟩

/-- C7: streak recomputation.  (a) In every state, the current streak computed
by `recalculate_streaks` is exactly the run of consecutive completed days
ending at the current date: every day it counts is completed and the day just
past the run is not.  (b) Completed logs on the current date and the two days
before, with no log two days earlier, give current_streak 3.  (c) A 5-day
completed run, a gap, then a 2-day run ending today store longest_streak 5
while current_streak is 2. -/
theorem c7_streak_recomputation :
    (∀ (db : DB) (u : Nat),
      (∀ k < (recalculate_streaks u db).2.1,
        completedOn db u (db.today - (k : Int)) = true) ∧
      completedOn db u
        (db.today - ((recalculate_streaks u db).2.1 : Int)) = false) ∧
    ((recalculate_streaks 0 dbStreak1).2.1 = 3 ∧
      completedOn dbStreak1 0 97 = false) ∧
    ((recalculate_streaks 0 dbStreak2).2.1 = 2 ∧
      (profileOf (recalculate_streaks 0 dbStreak2).1 0).map
        Profile.longestStreak = some 5) := by
  refine ⟨recalc_current_run, ⟨?_, ?_⟩, ⟨?_, ?_⟩⟩ <;> decide

/-- Witness for C7's universal part at a concrete state: the computed streak
of 3 on `dbStreak1` counts only completed days and stops at day 97. -/
theorem c7_streak_recomputation_witness :
    (∀ k < (recalculate_streaks 0 dbStreak1).2.1,
      completedOn dbStreak1 0 (dbStreak1.today - (k : Int)) = true) ∧
    completedOn dbStreak1 0
      (dbStreak1.today - ((recalculate_streaks 0 dbStreak1).2.1 : Int))
      = false :=
  c7_streak_recomputation.1 dbStreak1 0

/-- C10: the longest_streak returned by `log_workout` is the freshly computed
maximal run over all completed logs (not the stored profile value), while the
profile is updated to the maximum of its previous value and that computed run
— so the returned value can be strictly below the stored one. -/
theorem c10_returned_longest_is_computed (db : DB) (u : Nat) (d : Int)
    (pc : Bool) (pp : Option String) (db' : DB) (lid : Nat) (aw : Int)
    (cur lng : Nat) (tot : Int) (prof prof' : Profile)
    (hrun : log_workout (some u) (some d) pc pp db =
      .ok (db', (lid, aw, cur, lng, tot)))
    (hprof : profileOf db u = some prof)
    (hprof' : profileOf db' u = some prof') :
    lng = maxRunLen (completedDates db' u) ∧
    prof'.longestStreak = max prof.longestStreak lng := by
  simp only [log_workout] at hrun
  cases hfind : db.workoutLogs.find?
      (fun l => l.userId == u && l.logDate == d) with
  | some oldRow =>
    rw [hfind] at hrun
    dsimp only at hrun
    cases pc with
    | false =>
      simp only [Bool.false_eq_true, if_false] at hrun
      simp only [Except.ok.injEq, Prod.mk.injEq] at hrun
      obtain ⟨hdb, -, -, -, hlng, -⟩ := hrun
      subst hdb
      refine ⟨by rw [← hlng]; rfl, ?_⟩
      have hpx : profileOf { db with
          workoutLogs := db.workoutLogs.map (fun l =>
            if l.userId == u && l.logDate == d then
              { oldRow with
                completed := false, payload := pp.getD "\x7b\x7d",
                planId := ((db.selectedPlans.find?
                  (fun s0 => s0.userId == u)).map SelectedPlan.planId) <|>
                  oldRow.planId,
                updatedAt := db.now }
            else l) } u = some prof := hprof
      rw [profileOf_recalc] at hprof'
      rw [hpx] at hprof'
      simp only [Option.map_some'] at hprof'
      obtain rfl := Option.some.inj hprof'
      rw [← hlng]
      rfl
    | true =>
      simp only [eq_self_iff_true, if_true] at hrun
      split at hrun
      · simp only [Except.ok.injEq, Prod.mk.injEq] at hrun
        obtain ⟨hdb, -, -, -, hlng, -⟩ := hrun
        subst hdb
        refine ⟨by rw [← hlng]; rfl, ?_⟩
        have hpx : profileOf { db with
            workoutLogs := db.workoutLogs.map (fun l =>
              if l.userId == u && l.logDate == d then
                { oldRow with
                  completed := true, payload := pp.getD "\x7b\x7d",
                  planId := ((db.selectedPlans.find?
                    (fun s0 => s0.userId == u)).map SelectedPlan.planId) <|>
                    oldRow.planId,
                  updatedAt := db.now }
              else l) } u = some prof := hprof
        rw [profileOf_recalc] at hprof'
        rw [hpx] at hprof'
        simp only [Option.map_some'] at hprof'
        obtain rfl := Option.some.inj hprof'
        rw [← hlng]
        rfl
      · simp only [Except.ok.injEq, Prod.mk.injEq] at hrun
        obtain ⟨hdb, -, -, -, hlng, -⟩ := hrun
        subst hdb
        refine ⟨by rw [← hlng]; rfl, ?_⟩
        have hbump := find?_profiles_bump db.profiles u 20
        have hprof2 : List.find? (fun p => p.id == u) db.profiles =
          some prof := hprof
        rw [hprof2] at hbump
        simp only [Option.map_some'] at hbump
        rw [profileOf_recalc] at hprof'
        have hpx : profileOf { db with
            profiles := db.profiles.map (fun p =>
              if p.id == u then { p with totalXp := p.totalXp + 20 } else p),
            xpEvents := db.xpEvents ++ [{
              userId := u, sourceType := SourceType.workoutLog,
              sourceId := oldRow.id, amount := 20, createdAt := db.now }],
            workoutLogs := db.workoutLogs.map (fun l =>
              if l.userId == u && l.logDate == d then
                { oldRow with
                  completed := true, payload := pp.getD "\x7b\x7d",
                  planId := ((db.selectedPlans.find?
                    (fun s0 => s0.userId == u)).map SelectedPlan.planId) <|>
                    oldRow.planId,
                  updatedAt := db.now }
              else l) } u =
          some { prof with totalXp := prof.totalXp + 20 } := hbump
        rw [hpx] at hprof'
        simp only [Option.map_some'] at hprof'
        obtain rfl := Option.some.inj hprof'
        rw [← hlng]
        rfl
  | none =>
    rw [hfind] at hrun
    dsimp only at hrun
    cases pc with
    | false =>
      simp only [Bool.false_eq_true, if_false] at hrun
      simp only [Except.ok.injEq, Prod.mk.injEq] at hrun
      obtain ⟨hdb, -, -, -, hlng, -⟩ := hrun
      subst hdb
      refine ⟨by rw [← hlng]; rfl, ?_⟩
      have hpx : profileOf { db with
          nextId := db.nextId + 1,
          workoutLogs := db.workoutLogs ++ [{
            id := db.nextId, userId := u,
            planId := (db.selectedPlans.find?
              (fun s0 => s0.userId == u)).map SelectedPlan.planId,
            logDate := d, completed := false,
            payload := pp.getD "\x7b\x7d",
            updatedAt := db.now }] } u = some prof := hprof
      rw [profileOf_recalc] at hprof'
      rw [hpx] at hprof'
      simp only [Option.map_some'] at hprof'
      obtain rfl := Option.some.inj hprof'
      rw [← hlng]
      rfl
    | true =>
      simp only [eq_self_iff_true, if_true] at hrun
      split at hrun
      · simp only [Except.ok.injEq, Prod.mk.injEq] at hrun
        obtain ⟨hdb, -, -, -, hlng, -⟩ := hrun
        subst hdb
        refine ⟨by rw [← hlng]; rfl, ?_⟩
        have hpx : profileOf { db with
            nextId := db.nextId + 1,
            workoutLogs := db.workoutLogs ++ [{
              id := db.nextId, userId := u,
              planId := (db.selectedPlans.find?
                (fun s0 => s0.userId == u)).map SelectedPlan.planId,
              logDate := d, completed := true,
              payload := pp.getD "\x7b\x7d",
              updatedAt := db.now }] } u = some prof := hprof
        rw [profileOf_recalc] at hprof'
        rw [hpx] at hprof'
        simp only [Option.map_some'] at hprof'
        obtain rfl := Option.some.inj hprof'
        rw [← hlng]
        rfl
      · simp only [Except.ok.injEq, Prod.mk.injEq] at hrun
        obtain ⟨hdb, -, -, -, hlng, -⟩ := hrun
        subst hdb
        refine ⟨by rw [← hlng]; rfl, ?_⟩
        have hbump := find?_profiles_bump db.profiles u 20
        have hprof2 : List.find? (fun p => p.id == u) db.profiles =
          some prof := hprof
        rw [hprof2] at hbump
        simp only [Option.map_some'] at hbump
        rw [profileOf_recalc] at hprof'
        have hpx : profileOf { db with
            nextId := db.nextId + 1,
            profiles := db.profiles.map (fun p =>
              if p.id == u then { p with totalXp := p.totalXp + 20 } else p),
            xpEvents := db.xpEvents ++ [{
              userId := u, sourceType := SourceType.workoutLog,
              sourceId := db.nextId, amount := 20, createdAt := db.now }],
            workoutLogs := db.workoutLogs ++ [{
              id := db.nextId, userId := u,
              planId := (db.selectedPlans.find?
                (fun s0 => s0.userId == u)).map SelectedPlan.planId,
              logDate := d, completed := true,
              payload := pp.getD "\x7b\x7d",
              updatedAt := db.now }] } u =
          some { prof with totalXp := prof.totalXp + 20 } := hbump
        rw [hpx] at hprof'
        simp only [Option.map_some'] at hprof'
        obtain rfl := Option.some.inj hprof'
        rw [← hlng]
        rfl

/-- Witness for C10: on a profile already storing longest_streak 9, logging a
completed workout whose fresh maximal run is 1 returns longest_streak 1 —
strictly below the stored value, which the profile keeps as max 9 1 = 9. -/
theorem c10_returned_longest_is_computed_witness :
    ((1 : Nat) = maxRunLen (completedDates (runState (log_workout (some 0)
        (some 100) true none dbLong) dbLong) 0) ∧
      ({ id := 0, username := some "zed", pathKey := some PathKey.hunter,
         totalXp := 20, currentStreak := 1, longestStreak := 9 } :
         Profile).longestStreak =
        max ({ baseProfile with longestStreak := 9 } : Profile).longestStreak
          1) ∧
    (1 : Nat) < 9 :=
  ⟨c10_returned_longest_is_computed dbLong 0 100 true none _ 100 20 1 1 20
      { baseProfile with longestStreak := 9 }
      { id := 0, username := some "zed", pathKey := some PathKey.hunter,
        totalXp := 20, currentStreak := 1, longestStreak := 9 }
      rfl rfl rfl,
   by decide⟩

/-- C9: leaderboard completeness and ordering.  For a caller who is a member
of the group, `get_leaderboard` returns exactly one row per current group
member — the rows are a permutation of the member list mapped to
(user, username, windowed ledger sum), so zero-ledger members appear with
xp 0 — sorted descending by summed XP with ties broken by username
ascending. -/
theorem c9_leaderboard_complete_and_ordered (db : DB) (caller gid : Nat)
    (tf : String)
    (hm : db.members.any (fun m => m.groupId == gid && m.userId == caller) =
      true) :
    ∃ out, get_leaderboard (some caller) gid tf db = .ok out ∧
      List.Perm out ((db.members.filter (fun m => m.groupId == gid)).map
        (fun m => { userId := m.userId,
                    username := (profileOf db m.userId).bind Profile.username,
                    xpTotal := userXpSince db m.userId
                      (timeframeCutoff db tf) : LeaderRow })) ∧
      List.Sorted lbRel out ∧
      ∀ m ∈ db.members, m.groupId = gid →
        userXpSince db m.userId (timeframeCutoff db tf) = 0 →
        ({ userId := m.userId,
           username := (profileOf db m.userId).bind Profile.username,
           xpTotal := 0 : LeaderRow }) ∈ out := by
  have hout : get_leaderboard (some caller) gid tf db =
      .ok (List.insertionSort lbRel
        ((db.members.filter (fun m => m.groupId == gid)).map
          (fun m => { userId := m.userId,
                      username := (profileOf db m.userId).bind
                        Profile.username,
                      xpTotal := userXpSince db m.userId
                        (timeframeCutoff db tf) : LeaderRow }))) := by
    simp only [get_leaderboard]
    rw [if_neg (by simp [hm])]
  refine ⟨_, hout, List.perm_insertionSort lbRel _,
    List.sorted_insertionSort lbRel _, ?_⟩
  intro m hmem hgid hzero
  have hfm : m ∈ db.members.filter (fun m0 => m0.groupId == gid) :=
    List.mem_filter.mpr ⟨hmem, by simp [hgid]⟩
  have hrow0 := List.mem_map_of_mem
    (fun m0 => { userId := m0.userId,
                 username := (profileOf db m0.userId).bind Profile.username,
                 xpTotal := userXpSince db m0.userId
                   (timeframeCutoff db tf) : LeaderRow }) hfm
  have hrow : ({
      userId := m.userId,
      username := (profileOf db m.userId).bind Profile.username,
      xpTotal := userXpSince db m.userId (timeframeCutoff db tf) } :
      LeaderRow) ∈
      (db.members.filter (fun m0 => m0.groupId == gid)).map
        (fun m0 => {
          userId := m0.userId,
          username := (profileOf db m0.userId).bind Profile.username,
          xpTotal := userXpSince db m0.userId
            (timeframeCutoff db tf) : LeaderRow }) := hrow0
  rw [hzero] at hrow
  exact ((List.perm_insertionSort lbRel _).mem_iff).mpr hrow

/-- Witness for C9: a concrete three-member group where one member has the
only in-window event; the zero-XP members are both present with xp 0 and the
output is ordered 20, 0, 0. -/
theorem c9_leaderboard_complete_and_ordered_witness :
    (∃ out, get_leaderboard (some 0) 40 "weekly" dbLb = .ok out ∧
      List.Perm out ((dbLb.members.filter (fun m => m.groupId == 40)).map
        (fun m => { userId := m.userId,
                    username := (profileOf dbLb m.userId).bind
                      Profile.username,
                    xpTotal := userXpSince dbLb m.userId
                      (timeframeCutoff dbLb "weekly") : LeaderRow })) ∧
      List.Sorted lbRel out ∧
      ∀ m ∈ dbLb.members, m.groupId = 40 →
        userXpSince dbLb m.userId (timeframeCutoff dbLb "weekly") = 0 →
        ({ userId := m.userId,
           username := (profileOf dbLb m.userId).bind Profile.username,
           xpTotal := 0 : LeaderRow }) ∈ out) ∧
    get_leaderboard (some 0) 40 "weekly" dbLb = .ok
      [{ userId := 5, username := some "alf", xpTotal := 20 },
       { userId := 0, username := none, xpTotal := 0 },
       { userId := 6, username := none, xpTotal := 0 }] :=
  ⟨c9_leaderboard_complete_and_ordered dbLb 0 40 "weekly" (by decide),
   by rfl⟩

/-- C3: end-to-end completion.  For a user with cached total 0 holding an
Active assignment of a 20-XP quest (fresh ids, no completion row yet), the
first `complete_quest` returns awarded true, 20 XP, total 20 (level 1) and
flips the assignment to completed; the second call on the same assignment
returns awarded false, 0 XP, total 20 and returns the state unchanged, so
the ledger and total are untouched. -/
theorem c3_complete_twice_scenario (db : DB) (u aqId : Nat)
    (prof : Profile) (aq : Assignment) (q : Quest)
    (note1 note2 : Option String)
    (hev : ∀ e ∈ db.xpEvents, e.sourceId < db.nextId)
    (hprof : profileOf db u = some prof) (hxp0 : prof.totalXp = 0)
    (hfa : db.assignments.find? (fun a => a.id == aqId && a.userId == u) =
      some aq)
    (hst : aq.status = QStatus.active)
    (hfq : db.quests.find? (fun q0 => q0.id == aq.questId) = some q)
    (hreward : q.xpReward = 20)
    (hnc : db.completions.find? (fun c => c.activeQuestId == aqId) = none) :
    ∃ db1,
      complete_quest (some u) aqId note1 db = .ok (db1, (true, 20, 20, 1)) ∧
      (db1.assignments.find? (fun a => a.id == aqId && a.userId == u)).map
        Assignment.status = some QStatus.completed ∧
      complete_quest (some u) aqId note2 db1 = .ok (db1, (false, 0, 20, 1)) := by
  obtain ⟨db1, hrun, hassign, hprofs, hevents, hquests, hcomps, hnext⟩ :=
    complete_quest_success db u aqId note1 aq q hev hfa hfq hst hnc
  have haq0 := List.find?_some hfa
  have haq : aq.id = aqId := (by simpa using haq0 :
    aq.id = aqId ∧ aq.userId = u).1
  have hbump := find?_profiles_bump db.profiles u q.xpReward
  have hprof2 : List.find? (fun p => p.id == u) db.profiles = some prof :=
    hprof
  rw [hprof2] at hbump
  simp only [Option.map_some'] at hbump
  have htot : totalXpOf db1 u = 20 := by
    show ((db1.profiles.find? (fun p => p.id == u)).map Profile.totalXp).getD
      0 = 20
    rw [hprofs, hbump]
    simp [hxp0, hreward]
  have hdiv : (20 : Int) / 100 + 1 = 1 := by decide
  rw [hreward, htot, hdiv] at hrun
  rw [haq] at hassign
  have hflip := find?_map_flip aqId u
    (fun a => { a with
      status := QStatus.completed,
      completedAt := some db.now, note := note1 <|> a.note })
    (fun a => rfl) (fun a => rfl) db.assignments
  have hfind1 : db1.assignments.find?
      (fun a => a.id == aqId && a.userId == u) =
      some { aq with
        status := QStatus.completed,
        completedAt := some db.now, note := note1 <|> aq.note } := by
    rw [hassign, hflip, hfa, Option.map_some']
    simp [haq]
  refine ⟨db1, hrun, ?_, ?_⟩
  · rw [hfind1, Option.map_some']
  · simp only [complete_quest, hfind1]
    have hq2 : db1.quests.find? (fun q0 => (q0.id ==
        ({ aq with
           status := QStatus.completed, completedAt := some db.now,
           note := note1 <|> aq.note } : Assignment).questId)) = some q := by
      rw [hquests]
      exact hfq
    rw [hq2]
    dsimp only
    rw [if_pos (by decide)]
    rw [htot, hdiv]

/-- Witness for C3 on a concrete state: completing assignment 10 of the 20-XP
quest awards once and the repeat is a no-op at total 20. -/
theorem c3_complete_twice_scenario_witness :
    ∃ db1,
      complete_quest (some 0) 10 none dbA = .ok (db1, (true, 20, 20, 1)) ∧
      (db1.assignments.find? (fun a => a.id == 10 && a.userId == 0)).map
        Assignment.status = some QStatus.completed ∧
      complete_quest (some 0) 10 none db1 = .ok (db1, (false, 0, 20, 1)) :=
  c3_complete_twice_scenario dbA 0 10 baseProfile
    { id := 10, userId := 0, questId := 1, status := QStatus.active,
      selectedAt := 5, completedAt := none, note := none }
    { id := 1, pathKey := PathKey.hunter, xpReward := 20, isActive := true }
    none none (by decide) rfl rfl rfl rfl rfl rfl rfl

/-- C6: capacity enforcement at the cap of 3.  With exactly 3 Active
assignments, selecting a 4th valid path-matching quest fails with
CapacityExceeded and the transaction rolls back; after completing one of the
3 (leaving 2 Active), the same selectQuest succeeds and inserts the new
Active assignment. -/
theorem c6_capacity_enforced (db : DB) (u q4 : Nat) (pk : PathKey)
    (quest4 : Quest) (hwf : WF db)
    (hpk : (profileOf db u).bind Profile.pathKey = some pk)
    (hfq4 : db.quests.find? (fun q0 => q0.id == q4 && q0.isActive) =
      some quest4)
    (hmatch : quest4.pathKey = pk)
    (hcount : countActive db u = 3) :
    select_quest (some u) q4 db = .error Err.capacityExceeded ∧
    (∀ (aid : Nat) (aq : Assignment) (q : Quest) (note : Option String),
      db.assignments.find? (fun a => a.id == aid && a.userId == u) =
        some aq →
      aq.status = QStatus.active →
      db.quests.find? (fun q0 => q0.id == aq.questId) = some q →
      db.completions.find? (fun c => c.activeQuestId == aid) = none →
      db.assignments.find? (fun a => a.userId == u && a.questId == q4 &&
        a.status == QStatus.active) = none →
      ∃ db2 rowId,
        select_quest (some u) q4
          (runState (complete_quest (some u) aid note db) db) =
          .ok (db2, (rowId, q4, QStatus.active)) ∧
        ∃ row ∈ db2.assignments, row.id = rowId ∧ row.userId = u ∧
          row.questId = q4 ∧ row.status = QStatus.active) := by
  constructor
  · simp only [select_quest, hpk, hfq4]
    rw [if_neg (by simp [hmatch]), if_pos (by omega)]
  · intro aid aq q note hfa hst hfq hnc hnoq4
    obtain ⟨db1, hrun, hassign, hprofs, hevents, hquests, hcomps, hnext⟩ :=
      complete_quest_success db u aid note aq q hwf.1 hfa hfq hst hnc
    have hrs : runState (complete_quest (some u) aid note db) db = db1 := by
      rw [hrun]
      rfl
    rw [hrs]
    have haq0 := List.find?_some hfa
    have haq : aq.id = aid ∧ aq.userId = u := by simpa using haq0
    rw [haq.1] at hassign
    have hpk1 : (profileOf db1 u).bind Profile.pathKey = some pk := by
      cases hp0 : profileOf db u with
      | none =>
        rw [hp0] at hpk
        simp at hpk
      | some prof =>
        have hprof2 : List.find? (fun p => p.id == u) db.profiles =
          some prof := hp0
        have hbump := find?_profiles_bump db.profiles u q.xpReward
        rw [hprof2] at hbump
        simp only [Option.map_some'] at hbump
        have hpf : profileOf db1 u =
            some { prof with totalXp := prof.totalXp + q.xpReward } := by
          show db1.profiles.find? (fun p => p.id == u) = _
          rw [hprofs]
          exact hbump
        rw [hpf]
        rw [hp0] at hpk
        simpa using hpk
    have hcnt1 : countActive db1 u = 2 := by
      have hflipcnt := countActive_flip aid u
        (fun a => { a with
          status := QStatus.completed, completedAt := some db.now,
          note := note <|> a.note })
        (fun a => rfl) db.assignments hwf.2.2.2.2.2.2 aq
        (List.mem_of_find?_eq_some hfa) haq.1 haq.2 hst
      have hc : countActive db1 u + 1 = countActive db u := by
        show (db1.assignments.filter
          (fun a => a.userId == u && a.status == QStatus.active)).length + 1
          = _
        rw [hassign]
        exact hflipcnt
      omega
    have hnone1 : db1.assignments.find? (fun a => a.userId == u &&
        a.questId == q4 && a.status == QStatus.active) = none := by
      rw [hassign]
      exact find?_flip_none aid u q4 _ (fun a => rfl) db.assignments hnoq4
    simp only [select_quest, hpk1, hquests, hfq4]
    have hne : ¬ (quest4.pathKey ≠ pk) := by simp [hmatch]
    rw [if_neg hne]
    have hlt : ¬ (countActive db1 u ≥ 3) := by omega
    rw [if_neg hlt, hnone1]
    refine ⟨_, db1.nextId, rfl, ?_⟩
    refine ⟨{
      id := db1.nextId, userId := u, questId := q4,
      status := QStatus.active, selectedAt := db1.now, completedAt := none,
      note := none }, ?_, rfl, rfl, rfl, rfl⟩
    exact List.mem_append.mpr (Or.inr (List.mem_singleton.mpr rfl))

/-- Witness for `c6_capacity_enforced`: user 0 in `dbCap` holds 3 Active
assignments; selecting quest 4 fails with `capacityExceeded`, and after
completing assignment 10 the same selection succeeds. -/
theorem c6_capacity_enforced_witness :
    select_quest (some 0) 4 dbCap = .error Err.capacityExceeded ∧
    (∃ db2 rowId,
      select_quest (some 0) 4
        (runState (complete_quest (some 0) 10 none dbCap) dbCap) =
        .ok (db2, (rowId, 4, QStatus.active)) ∧
      ∃ row ∈ db2.assignments, row.id = rowId ∧ row.userId = 0 ∧
        row.questId = 4 ∧ row.status = QStatus.active) := by
  have h := c6_capacity_enforced dbCap 0 4 PathKey.hunter
    { id := 4, pathKey := PathKey.hunter, xpReward := 50, isActive := true }
    (by decide) rfl rfl rfl rfl
  exact ⟨h.1, h.2 10
    {
      id := 10, userId := 0, questId := 1, status := QStatus.active,
      selectedAt := 5, completedAt := none, note := none }
    { id := 1, pathKey := PathKey.hunter, xpReward := 20, isActive := true }
    none rfl rfl rfl rfl rfl⟩

end ZBXP
